import Mathlib

/-!
# Identity-provider adapter (package `idpadapter`)

A shallow embedding of `pkg/idpadapter/idpadapter.go` and `pkg/idpadapter/token.go`.

Conventions of the embedding:

* Go `string` is `String`; Go `int64` and `int` are `Int` (the code only compares these
  values, it never does arithmetic on them, so no wrap-around can occur).
* A Go `error` is its message; a nil error is `none`.  A Go pointer result is an `Option`.
  Functions with several results return a structure with one field per result.
* Code of other modules (`go-oidc`, `oauth2`, `net/url`, `encoding/json`, `time`,
  `go.uuid`) is not part of this repository.  Objects of those modules that the adapter
  stores (`oidc.Provider`, `oidc.KeySet`) are records of their methods; free functions of
  those modules and the clock are fields of `World`.
* Every function that calls out for verification or for a token exchange also returns
  the list of those calls, in the order the source makes them.
* Where a claim is about what a method leaves untouched, the method is also given
  statement by statement over a heap of the cells its pointers refer to.
-/

namespace idpadapter

/-! ## Values of other modules -/

/-- Dynamic value of a Go `interface{}`, as returned by `oauth2.Token.Extra`. -/
inductive Value where
  | nil
  | string (s : String)
  | int64 (i : Int)
  | bool (b : Bool)
  | other (descr : String)
  deriving DecidableEq, Repr

/-- Go `url.URL`. -/
structure URL where
  Scheme : String := ""
  Opaque : String := ""
  Host : String := ""
  Path : String := ""
  RawPath : String := ""
  RawQuery : String := ""
  Fragment : String := ""
  deriving DecidableEq, Repr

/-- Go `oauth2.Endpoint`. -/
structure Endpoint where
  AuthURL : String := ""
  TokenURL : String := ""
  AuthStyle : Int := 0
  deriving DecidableEq, Repr

/-- Go `oauth2.Config`. -/
structure OAuth2Config where
  ClientID : String
  ClientSecret : String
  Endpoint : Endpoint
  RedirectURL : String
  Scopes : List String
  deriving DecidableEq, Repr

/-- Go `oidc.Config`, the fields that `New` sets. -/
structure OidcConfig where
  ClientID : String
  SupportedSigningAlgs : List String
  deriving DecidableEq, Repr

/-- Go `oidc.IDToken`: the verified token; `raw` holds its claim payload. -/
structure IDToken where
  raw : List UInt8
  deriving DecidableEq, Repr

/-- Go `time.Time`: seconds and nanoseconds since the Unix epoch, and the name of the
location the instant is presented in. -/
structure Time where
  sec : Int := 0
  nsec : Int := 0
  loc : String := "UTC"
  deriving DecidableEq, Repr

/-- Go `url.Values` (`map[string][]string`), as its key/values entries. -/
abbrev Values := List (String × List String)

/-- Go `oauth2.Token`; `extra` is the method `Extra(key)`. -/
structure Token where
  AccessToken : String := ""
  TokenType : String := ""
  RefreshToken : String := ""
  Expiry : Time := {}
  extra : String → Value := fun _ => Value.nil

/-- The method `token.Extra(key)`. -/
def Token.Extra (t : Token) (key : String) : Value := t.extra key

/-! ## Claims (token.go) -/

/-- AccessTokenClaims holds all of the claims that a standard JWT would have. -/
structure AccessTokenClaims where
  Audience : String := ""
  ExpiresAt : Int := 0
  JTI : String := ""
  IssuedAt : Int := 0
  Issuer : String := ""
  NotBefore : Int := 0
  Subject : String := ""
  UID : String := ""
  ClientID : String := ""
  deriving DecidableEq, Repr

/-- IDTokenClaims holds the claims of an OIDC ID token. -/
structure IDTokenClaims where
  Audience : String := ""
  ExpiresAt : Int := 0
  JTI : String := ""
  IssuedAt : Int := 0
  Issuer : String := ""
  Subject : String := ""
  Name : String := ""
  Email : String := ""
  deriving DecidableEq, Repr

/-! ## Objects the adapter stores -/

/-- Go `oidc.KeySet` (an interface): `VerifySignature(ctx, jwt)` returns the payload. -/
structure KeySet where
  VerifySignature : String → Except String (List UInt8)

/-- Go `*oidc.Provider`: `Endpoint()`, `Claims(&struct{JWKSURL})` (the decoded `jwks_uri`,
or the decoding error) and `Verifier(config).Verify(ctx, rawIDToken)`. -/
structure Provider where
  Endpoint : Endpoint
  Claims : Except String String
  Verify : OidcConfig → String → Except String IDToken

/-- Free functions of other modules, and the clock. -/
structure World where
  /-- Go `oidc.NewProvider(ctx, issuer)`. -/
  NewProvider : String → Except String Provider
  /-- Go `oidc.NewRemoteKeySet(ctx, jwksURL)`. -/
  NewRemoteKeySet : String → KeySet
  /-- Go `url.Parse`. -/
  urlParse : String → Except String URL
  /-- Go `(*url.URL).String`. -/
  urlString : URL → String
  /-- Go `json.Unmarshal(payload, &accessClaims)`. -/
  unmarshalAccessTokenClaims : List UInt8 → Except String AccessTokenClaims
  /-- Go `idToken.Claims(&idClaims)`. -/
  idTokenClaims : IDToken → Except String IDTokenClaims
  /-- Go `(*oauth2.Config).AuthCodeURL(state, oauth2.SetAuthURLParam(k, v)...)`. -/
  oauth2AuthCodeURL : OAuth2Config → String → List (String × String) → String
  /-- Go `time.Now().UTC().Unix()`. -/
  unixNow : Int
  /-- Go `(*oauth2.Config).Exchange(ctx, code)`. -/
  oauth2Exchange : OAuth2Config → String → Except String Token
  /-- Go `(*oauth2.Config).PasswordCredentialsToken(ctx, username, password)`. -/
  oauth2PasswordCredentialsToken : OAuth2Config → String → String → Except String Token
  /-- Go `url.Values.Encode`. -/
  valuesEncode : Values → String
  /-- Go `time.Unix(sec, nsec)`. -/
  timeUnix : Int → Int → Time
  /-- Go `time.Time.UTC`. -/
  timeUTC : Time → Time

/-! ## idpadapter.go -/

/-- AuthFlowType is used to identify the authentication flow (`type AuthFlowType int`). -/
abbrev AuthFlowType := Int

/-- LoginAuthFlow: the auth flow is for an existing user. -/
def LoginAuthFlow : AuthFlowType := 0

/-- SignupAuthFlow: the auth flow is for a new user. -/
def SignupAuthFlow : AuthFlowType := 1

/-- IdentityProviderAdapter is the configuration for an OAuth2 with OIDC identity provider.
The logger and the HTTP client are left out: they only carry the requests that the
`Provider`, `KeySet` and `World` fields stand for. -/
structure IdentityProviderAdapter where
  label : String
  ClientID : String
  clientSecret : String
  Issuer : String
  Audience : String
  issuerURL : URL
  defaultLoginCallbackURL : URL
  defaultSignupCallbackURL : URL
  issuerLogoutPath : String
  oidcProvider : Provider
  oidcConfig : OidcConfig
  jwksAccessTokenKeySet : KeySet
  oauth2Config : OAuth2Config

/-- The function `newRemoteKeySet`.  Its Go result pair is either `(keyset, nil)`, here
`.ok keyset`, or `(nil, err)`, here `.error err`. -/
def newRemoteKeySet (w : World) (provider : Provider) : Except String KeySet :=
  match provider.Claims with
  | .error err => .error err
  | .ok JWKSURL => .ok (w.NewRemoteKeySet JWKSURL)

/-- Result pair of `New`. -/
structure NewReturn where
  adapter : Option IdentityProviderAdapter
  err : Option String

/-- New constructs a new IdentityProviderAdapter. -/
def New (w : World) (label id secret issuer audience loginCB signupCB logout : String) :
    NewReturn :=
  match w.NewProvider issuer with
  | .error err => ⟨none, some ("oidc provider: " ++ err)⟩
  | .ok oidcProv =>
    let oidcConfig : OidcConfig := { ClientID := id, SupportedSigningAlgs := ["RS256"] }
    match newRemoteKeySet w oidcProv with
    | .error err => ⟨none, some ("jwks keyset: " ++ err)⟩
    | .ok keyset =>
      let oauthConf : OAuth2Config :=
        { ClientID := id
          ClientSecret := secret
          Endpoint := oidcProv.Endpoint
          RedirectURL := ""
          Scopes := ["openid", "email", "profile"] }
      match w.urlParse loginCB with
      | .error err => ⟨none, some ("login callback expected to be valid url: " ++ err)⟩
      | .ok loginCBURL =>
        match w.urlParse signupCB with
        | .error err => ⟨none, some ("signup callback expected to be valid url: " ++ err)⟩
        | .ok signupCBURL =>
          match w.urlParse issuer with
          | .error err => ⟨none, some ("issuer expected to be valid url: " ++ err)⟩
          | .ok issuerURL =>
            ⟨some
              { label := label
                ClientID := id
                clientSecret := secret
                Issuer := issuer
                Audience := audience
                issuerURL := issuerURL
                defaultLoginCallbackURL := loginCBURL
                defaultSignupCallbackURL := signupCBURL
                issuerLogoutPath := logout
                oidcProvider := oidcProv
                oidcConfig := oidcConfig
                jwksAccessTokenKeySet := keyset
                oauth2Config := oauthConf }, none⟩

/-- The method `initOAuth2`: a copy of the stored configuration with the redirect URI set.
A flow value that is neither of the two constants leaves an empty `redirectURI` empty
(the `switch` has no default case). -/
def initOAuth2 (w : World) (ia : IdentityProviderAdapter) (redirectURI : String)
    (authFlow : AuthFlowType) : OAuth2Config :=
  let cp := ia.oauth2Config
  let redirectURI :=
    if redirectURI = "" then
      if authFlow = LoginAuthFlow then w.urlString ia.defaultLoginCallbackURL
      else if authFlow = SignupAuthFlow then w.urlString ia.defaultSignupCallbackURL
      else redirectURI
    else redirectURI
  { cp with RedirectURL := redirectURI }

/-- AuthCodeURL creates the link to the identity provider's consent page.  The argument
`nonce` is the value of `uuid.NewV4().String()` drawn by this call. -/
def AuthCodeURL (w : World) (ia : IdentityProviderAdapter) (nonce : String)
    (state overrideRedirectURI : String) (authFlow : AuthFlowType) : String :=
  let oauth2Client := initOAuth2 w ia overrideRedirectURI authFlow
  w.oauth2AuthCodeURL oauth2Client state [("nonce", nonce)]

/-! ## token.go -/

/-- Calls that a verification makes outside the adapter, in source order. -/
inductive Call where
  /-- The call `ia.jwksAccessTokenKeySet.VerifySignature(ctx, jwt)`. -/
  | VerifySignature (jwt : String)
  /-- The call `ia.oidcProvider.Verifier(ia.oidcConfig).Verify(ctx, rawIDToken)`. -/
  | Verify (rawIDToken : String)
  /-- The call `json.Unmarshal(payload, &accessClaims)`. -/
  | Unmarshal (payload : List UInt8)
  /-- The call `idToken.Claims(&idClaims)`. -/
  | Claims
  /-- The call `time.Now()`. -/
  | Now
  /-- The call `oauth2Client.Exchange(ctx, code)` on the configuration `oauth2Client`. -/
  | Exchange (oauth2Client : OAuth2Config) (code : String)
  /-- The call `oauth2Client.PasswordCredentialsToken(ctx, username, password)`. -/
  | PasswordCredentialsToken (oauth2Client : OAuth2Config) (username password : String)
  deriving DecidableEq, Repr

/-- Result pair of `VerifyJWTAccessToken`. -/
structure AccessTokenReturn where
  claims : Option AccessTokenClaims
  err : Option String
  deriving DecidableEq, Repr

/-- VerifyJWTAccessToken takes an access token formatted as a JWT and verifies the
signature, expiration, and the claims. -/
def VerifyJWTAccessToken (w : World) (ia : IdentityProviderAdapter) (jwt : String) :
    AccessTokenReturn × List Call :=
  match ia.jwksAccessTokenKeySet.VerifySignature jwt with
  | .error err =>
    (⟨none, some ("verifying jwt signature: " ++ err)⟩, [Call.VerifySignature jwt])
  | .ok payload =>
    match w.unmarshalAccessTokenClaims payload with
    | .error err =>
      (⟨none, some ("unmarshaling claims: " ++ err)⟩,
        [Call.VerifySignature jwt, Call.Unmarshal payload])
    | .ok accessClaims =>
      let unixNow := w.unixNow
      let calls := [Call.VerifySignature jwt, Call.Unmarshal payload, Call.Now]
      if accessClaims.IssuedAt > unixNow then
        (⟨none, some "invalid jwt iat"⟩, calls)
      else if accessClaims.ExpiresAt < unixNow then
        (⟨none, some "invalid jwt expired"⟩, calls)
      else if accessClaims.NotBefore > unixNow then
        (⟨none, some "invalid jwt nbf"⟩, calls)
      else if accessClaims.Issuer ≠ ia.Issuer then
        (⟨none, some "invalid jwt iss"⟩, calls)
      else if accessClaims.Audience ≠ ia.Audience then
        (⟨none, some "invalid jwt aud"⟩, calls)
      else if accessClaims.ClientID ≠ "" ∧ accessClaims.ClientID ≠ ia.ClientID then
        (⟨none, some "invalid jwt cid"⟩, calls)
      else
        (⟨some accessClaims, none⟩, calls)

/-- Result triple of `VerifyIDToken`. -/
structure IDTokenReturn where
  claims : Option IDTokenClaims
  rawIDToken : String
  err : Option String
  deriving DecidableEq, Repr

/-- VerifyIDToken takes an ID token and verifies the signature, expiration, and the
claims. -/
def VerifyIDToken (w : World) (ia : IdentityProviderAdapter) (token : Token) :
    IDTokenReturn × List Call :=
  match token.Extra "id_token" with
  | .string rawIDToken =>
    match ia.oidcProvider.Verify ia.oidcConfig rawIDToken with
    | .error err =>
      (⟨none, "", some ("verifying jwt signature: " ++ err)⟩, [Call.Verify rawIDToken])
    | .ok idToken =>
      match w.idTokenClaims idToken with
      | .error err =>
        (⟨none, "", some ("unmarshaling claims: " ++ err)⟩,
          [Call.Verify rawIDToken, Call.Claims])
      | .ok idClaims =>
        let unixNow := w.unixNow
        let calls := [Call.Verify rawIDToken, Call.Claims, Call.Now]
        if idClaims.IssuedAt > unixNow then
          (⟨none, "", some "invalid jwt iat"⟩, calls)
        else if idClaims.ExpiresAt < unixNow then
          (⟨none, "", some "invalid jwt exp"⟩, calls)
        else if idClaims.Issuer ≠ ia.Issuer then
          (⟨none, "", some "invalid jwt iss"⟩, calls)
        else if idClaims.Audience ≠ ia.ClientID then
          (⟨none, "", some "invalid jwt aud"⟩, calls)
        else
          (⟨some idClaims, rawIDToken, none⟩, calls)
  | _ => (⟨none, "", some "no id_token field in oauth2 token"⟩, [])

/-! ## idpadapter.go: exchanges, identity and logout link -/

/-- Identity holds the information from a parsed ID token that identifies a user. -/
structure Identity where
  UserID : String
  Name : String
  Email : String
  Issuer : String
  IDToken : String
  AccessToken : String
  AccessTokenIssuedAt : Time
  AccessTokenExpiresAt : Time
  deriving DecidableEq, Repr

/-- Result pair `(*Identity, error)` of `getIdentity` and of the two exchanges. -/
structure IdentityReturn where
  identity : Option Identity
  err : Option String
  deriving DecidableEq, Repr

/-- How a call ends: it returns its results, or it dereferences a nil pointer. -/
inductive Outcome (α : Type) where
  | returned (a : α)
  | nilDereference
  deriving DecidableEq, Repr

/-- The method `getIdentity` verifies the ID token and returns an Identity.  It tests
only `err`; reading the fields of a nil `idClaims` would be a nil dereference. -/
def getIdentity (w : World) (ia : IdentityProviderAdapter) (token : Token) :
    Outcome IdentityReturn × List Call :=
  match VerifyIDToken w ia token with
  | (⟨_, _, some err⟩, calls) =>
    (Outcome.returned ⟨none, some ("verifying id token: " ++ err)⟩, calls)
  | (⟨none, _, none⟩, calls) => (Outcome.nilDereference, calls)
  | (⟨some idClaims, rawIDToken, none⟩, calls) =>
    (Outcome.returned
      ⟨some
        { UserID := idClaims.Subject
          Name := idClaims.Name
          Email := idClaims.Email
          Issuer := idClaims.Issuer
          IDToken := rawIDToken
          AccessToken := token.AccessToken
          AccessTokenIssuedAt := w.timeUTC (w.timeUnix idClaims.IssuedAt 0)
          AccessTokenExpiresAt := w.timeUTC token.Expiry }, none⟩, calls)

/-- ExchangeCodeAndVerifyTokens exchanges the code for id and access tokens. -/
def ExchangeCodeAndVerifyTokens (w : World) (ia : IdentityProviderAdapter)
    (code overrideRedirectURI : String) (authFlow : AuthFlowType) :
    Outcome IdentityReturn × List Call :=
  let oauth2Client := initOAuth2 w ia overrideRedirectURI authFlow
  match w.oauth2Exchange oauth2Client code with
  | .error err =>
    (Outcome.returned ⟨none, some ("exchanging code for token: " ++ err)⟩,
      [Call.Exchange oauth2Client code])
  | .ok token =>
    let r := getIdentity w ia token
    (r.1, Call.Exchange oauth2Client code :: r.2)

/-- ExchangeUsernameAndPasswordAndVerifyTokens does a Resource Owner Password grant. -/
def ExchangeUsernameAndPasswordAndVerifyTokens (w : World) (ia : IdentityProviderAdapter)
    (username password : String) : Outcome IdentityReturn × List Call :=
  let oauth2Client := initOAuth2 w ia "" LoginAuthFlow
  match w.oauth2PasswordCredentialsToken oauth2Client username password with
  | .error err =>
    (Outcome.returned ⟨none, some ("exchanging u:p for token: " ++ err)⟩,
      [Call.PasswordCredentialsToken oauth2Client username password])
  | .ok token =>
    let r := getIdentity w ia token
    (r.1, Call.PasswordCredentialsToken oauth2Client username password :: r.2)

/-- Go `strings.TrimLeft(s, cutset)`: `s` without its leading characters that occur in
`cutset`. -/
def TrimLeft (s cutset : String) : String :=
  String.mk (s.data.dropWhile fun c => cutset.data.contains c)

/-- The URL value that `LogoutLink` builds before rendering it: a copy of the issuer URL
with the logout path appended to `Path` and the encoded parameters as `RawQuery`. -/
def logoutURL (w : World) (ia : IdentityProviderAdapter) (params : Values) : URL :=
  let logoutURL := ia.issuerURL
  let logoutURL :=
    { logoutURL with Path := logoutURL.Path ++ ("/" ++ TrimLeft ia.issuerLogoutPath "/") }
  { logoutURL with RawQuery := w.valuesEncode params }

/-- LogoutLink generates the logout url for the 3rd party identity provider. -/
def LogoutLink (w : World) (ia : IdentityProviderAdapter) (params : Values) : String :=
  w.urlString (logoutURL w ia params)

/-- The method `initOAuth2`, statement by statement, over a heap of `oauth2.Config`
cells: a `*oauth2.Config` is an index into `heap`, the pointer `ia.oauth2Config` is
`base`.  The result is the heap after the call and the returned pointer `cp`; `none`
is the dereference of a pointer that refers to no cell. -/
def initOAuth2OnHeap (w : World) (ia : IdentityProviderAdapter) (heap : List OAuth2Config)
    (base : Nat) (redirectURI : String) (authFlow : AuthFlowType) :
    Option (List OAuth2Config × Nat) :=
  -- cp := &oauth2.Config{}
  let cp := heap.length
  let heap := heap ++ [{ ClientID := "", ClientSecret := "", Endpoint := {},
                         RedirectURL := "", Scopes := [] }]
  -- *cp = *ia.oauth2Config
  match heap[base]? with
  | none => none
  | some v =>
    let heap := heap.set cp v
    let redirectURI :=
      if redirectURI = "" then
        if authFlow = LoginAuthFlow then w.urlString ia.defaultLoginCallbackURL
        else if authFlow = SignupAuthFlow then w.urlString ia.defaultSignupCallbackURL
        else redirectURI
      else redirectURI
    -- cp.RedirectURL = redirectURI
    match heap[cp]? with
    | none => none
    | some c => some (heap.set cp { c with RedirectURL := redirectURI }, cp)

/-- The method `LogoutLink`, statement by statement, on the adapter cell behind the
receiver pointer `ia` and the local variable `logoutURL`, which is a `url.URL` value:
the result is the adapter cell after the call and the returned link. -/
def LogoutLinkOnState (w : World) (ia : IdentityProviderAdapter) (params : Values) :
    IdentityProviderAdapter × String :=
  -- logoutURL := ia.issuerURL
  let frame : IdentityProviderAdapter × URL := (ia, ia.issuerURL)
  -- logoutURL.Path += "/" + strings.TrimLeft(ia.issuerLogoutPath, "/")
  let frame : IdentityProviderAdapter × URL :=
    (frame.1,
      { frame.2 with Path := frame.2.Path ++ ("/" ++ TrimLeft frame.1.issuerLogoutPath "/") })
  -- logoutURL.RawQuery = params.Encode()
  let frame : IdentityProviderAdapter × URL :=
    (frame.1, { frame.2 with RawQuery := w.valuesEncode params })
  -- return logoutURL.String()
  (frame.1, w.urlString frame.2)

/-! ## A concrete provider, adapter and tokens

Issuer `https://idp.example.com`, client id and audience `abc123`, clock at 1000. -/

/-- Claims of a valid ID token: issued five seconds ago, expiring in ten minutes. -/
def aliceClaims : IDTokenClaims :=
  { Audience := "abc123", ExpiresAt := 1600, IssuedAt := 995
    Issuer := "https://idp.example.com", Subject := "u1", Name := "Alice"
    Email := "a@example.com" }

/-- What the example verifier reads off a raw ID token: the claims `iss`, `aud` and `exp`,
the rendering of `exp` as a time, the claim payload, and whether the signature was made
with a key of the provider. -/
structure ExampleJWT where
  iss : String
  aud : List String
  exp : Int
  expiry : String
  payload : List UInt8
  signed : Bool
  deriving DecidableEq, Repr

/-- The raw ID tokens of the example: `jwt1` is valid, `jwt2` expired one second ago,
`jwt3` is for another audience, `jwt4` is from another issuer, `jwt5` is from another
issuer, for another audience, expired and issued in the future, `jwt6` is valid but for
its `iat`, which lies in the future, and `jwt7` is valid but signed with a foreign key. -/
def exampleJWT (rawIDToken : String) : Option ExampleJWT :=
  if rawIDToken = "jwt1" then
    some { iss := "https://idp.example.com", aud := ["abc123"], exp := 1600
           expiry := "1970-01-01 00:26:40 +0000 UTC", payload := [1], signed := true }
  else if rawIDToken = "jwt2" then
    some { iss := "https://idp.example.com", aud := ["abc123"], exp := 999
           expiry := "1970-01-01 00:16:39 +0000 UTC", payload := [2], signed := true }
  else if rawIDToken = "jwt3" then
    some { iss := "https://idp.example.com", aud := ["other"], exp := 1600
           expiry := "1970-01-01 00:26:40 +0000 UTC", payload := [3], signed := true }
  else if rawIDToken = "jwt4" then
    some { iss := "https://evil.example.com", aud := ["abc123"], exp := 1600
           expiry := "1970-01-01 00:26:40 +0000 UTC", payload := [4], signed := true }
  else if rawIDToken = "jwt5" then
    some { iss := "https://evil.example.com", aud := ["other"], exp := 500
           expiry := "1970-01-01 00:08:20 +0000 UTC", payload := [5], signed := true }
  else if rawIDToken = "jwt6" then
    some { iss := "https://idp.example.com", aud := ["abc123"], exp := 2600
           expiry := "1970-01-01 00:43:20 +0000 UTC", payload := [6], signed := true }
  else if rawIDToken = "jwt7" then
    some { iss := "https://idp.example.com", aud := ["abc123"], exp := 1600
           expiry := "1970-01-01 00:26:40 +0000 UTC", payload := [7], signed := false }
  else none

/-- A string between double quotes, as Go `%q` prints one that needs no escaping. -/
def quoted (s : String) : String := "\"" ++ s ++ "\""

/-- The verifier of the example provider, at time `now`.  It makes the checks of the
go-oidc verifier for a configuration that, like the one `New` builds, sets the client id
and skips nothing, in the order of the library: issuer, audience, expiry, signature.  The
accepted token carries the claim payload. -/
def exampleVerify (issuer : String) (now : Int) (config : OidcConfig) (rawIDToken : String) :
    Except String IDToken :=
  match exampleJWT rawIDToken with
  | none => .error "oidc: malformed jwt: square/go-jose: compact JWS format must have three parts"
  | some t =>
    if t.iss ≠ issuer then
      .error ("oidc: id token issued by a different provider, expected " ++ quoted issuer
        ++ " got " ++ quoted t.iss)
    else if config.ClientID ∉ t.aud then
      .error ("oidc: expected audience " ++ quoted config.ClientID ++ " got ["
        ++ String.intercalate " " (t.aud.map quoted) ++ "]")
    else if t.exp < now then
      .error ("oidc: token is expired (Token Expiry: " ++ t.expiry ++ ")")
    else if t.signed = false then
      .error "failed to verify signature: failed to verify id token signature"
    else .ok ⟨t.payload⟩

/-- The provider discovered at `https://idp.example.com`, with the example verifier at
time 1000. -/
def exampleProvider : Provider :=
  { Endpoint := { AuthURL := "https://idp.example.com/authorize"
                  TokenURL := "https://idp.example.com/token" }
    Claims := .ok "https://idp.example.com/keys"
    Verify := exampleVerify "https://idp.example.com" 1000 }

/-- A key set that accepts the access tokens `at1` to `at4`. -/
def exampleKeySet : KeySet :=
  { VerifySignature := fun jwt =>
      if jwt = "at1" then .ok [1]
      else if jwt = "at2" then .ok [2]
      else if jwt = "at3" then .ok [3]
      else if jwt = "at4" then .ok [4]
      else .error "failed to verify id token signature" }

/-- Claims of a valid access token without a `cid` claim. -/
def serviceClaims : AccessTokenClaims :=
  { Audience := "api://default", ExpiresAt := 1600, IssuedAt := 995
    Issuer := "https://idp.example.com", NotBefore := 995, Subject := "u1" }

/-- An exchange result whose `id_token` extra field is the string `raw`. -/
def tokenWithIDToken (raw : String) : Token :=
  { AccessToken := "opaque-access-token", TokenType := "Bearer"
    extra := fun key => if key = "id_token" then Value.string raw else Value.nil }

/-- The token set that the example token endpoint issues around the ID token `raw`; it
expires at 4600, presented in local time. -/
def exchangedToken (raw : String) : Token :=
  { tokenWithIDToken raw with Expiry := { sec := 4600, loc := "Local" } }

/-- A world at time 1000 in which URLs are held in their `Path` field, the token endpoint
answers the codes `code1` and `code2` and the password of `alice` (the latter two with an
expired ID token), and `UTC` relabels the location of a time.  ID-token payload
`[1]` decodes to the valid claims and `[6]` to the claims issued in the future; the other
ID tokens of the example do not pass the verifier.  Access-token payload
`[1]` decodes to the valid claims, `[2]` adds the adapter's client id, `[3]` a foreign
client id and `[4]` fails every check. -/
def exampleWorld : World :=
  { NewProvider := fun issuer =>
      if issuer = "https://idp.example.com" then .ok exampleProvider
      else .error "404 Not Found"
    NewRemoteKeySet := fun _ => exampleKeySet
    urlParse := fun s => if s = ":" then .error "missing protocol scheme" else .ok { Path := s }
    urlString := fun u => u.Path
    unmarshalAccessTokenClaims := fun payload =>
      if payload = [1] then .ok serviceClaims
      else if payload = [2] then .ok { serviceClaims with ClientID := "abc123" }
      else if payload = [3] then .ok { serviceClaims with ClientID := "zzz999" }
      else if payload = [4] then
        .ok { serviceClaims with IssuedAt := 2000, ExpiresAt := 500, NotBefore := 2000
                                 Issuer := "https://evil.example.com", Audience := "other"
                                 ClientID := "zzz999" }
      else .error "unexpected end of JSON input"
    idTokenClaims := fun idToken =>
      if idToken.raw = [1] then .ok aliceClaims
      else if idToken.raw = [6] then .ok { aliceClaims with IssuedAt := 2000, ExpiresAt := 2600 }
      else .error "unexpected end of JSON input"
    oauth2AuthCodeURL := fun c state opts =>
      c.Endpoint.AuthURL ++ "?client_id=" ++ c.ClientID ++ "&redirect_uri=" ++ c.RedirectURL
        ++ "&state=" ++ state ++ String.join (opts.map fun kv => "&" ++ kv.1 ++ "=" ++ kv.2)
    unixNow := 1000
    oauth2Exchange := fun c code =>
      if c.RedirectURL = "" then .error "oauth2: cannot fetch token: 400 Bad Request"
      else if code = "code1" then .ok (exchangedToken "jwt1")
      else if code = "code2" then .ok (exchangedToken "jwt2")
      else .error "oauth2: cannot fetch token: 400 Bad Request"
    oauth2PasswordCredentialsToken := fun _ username password =>
      if username = "alice" ∧ password = "correct horse" then .ok (exchangedToken "jwt2")
      else .error "oauth2: cannot fetch token: 401 Unauthorized"
    valuesEncode := fun params =>
      String.intercalate "&" (params.map fun kv => kv.1 ++ "=" ++ String.intercalate "," kv.2)
    timeUnix := fun sec nsec => { sec := sec, nsec := nsec, loc := "Local" }
    timeUTC := fun t => { t with loc := "UTC" } }

/-- The adapter of the example provider. -/
def exampleAdapter : IdentityProviderAdapter :=
  { label := "example"
    ClientID := "abc123"
    clientSecret := "s3cret"
    Issuer := "https://idp.example.com"
    Audience := "api://default"
    issuerURL := { Path := "https://idp.example.com" }
    defaultLoginCallbackURL := { Path := "https://app.example.com/login/callback" }
    defaultSignupCallbackURL := { Path := "https://app.example.com/signup/callback" }
    issuerLogoutPath := "/logout"
    oidcProvider := exampleProvider
    oidcConfig := { ClientID := "abc123", SupportedSigningAlgs := ["RS256"] }
    jwksAccessTokenKeySet := exampleKeySet
    oauth2Config :=
      { ClientID := "abc123"
        ClientSecret := "s3cret"
        Endpoint := exampleProvider.Endpoint
        RedirectURL := ""
        Scopes := ["openid", "email", "profile"] } }

/-- An adapter whose issuer URL has the path `/`, as for the issuer
`https://tenant.auth0.com/`, with the logout path `/v2/logout`. -/
def trailingSlashAdapter : IdentityProviderAdapter :=
  { exampleAdapter with
    Issuer := "https://tenant.auth0.com/"
    issuerURL := { Scheme := "https", Host := "tenant.auth0.com", Path := "/" }
    issuerLogoutPath := "/v2/logout" }

/-- A provider whose metadata document has no `jwks_uri`, or an empty one: the field
decodes to the empty string. -/
def emptyJWKSProvider : Provider := { exampleProvider with Claims := .ok "" }

/-- The example world with the provider of the empty `jwks_uri` behind every issuer. -/
def emptyJWKSWorld : World :=
  { exampleWorld with NewProvider := fun _ => .ok emptyJWKSProvider }

end idpadapter

/-!
# HTTP side of the service (packages `models`, `utils`, `device`, `middleware`, `pet`)

Conventions of the embedding:

* An `http.ResponseWriter` is the state of a recording writer (header, status, body), as
  `httptest.ResponseRecorder` in the tests of the repository; a handler takes the state
  and the request and returns the new state.  Writing to the recorder does not fail, so
  the `error` result of the response helpers is always nil and is left out.
* A handler that wraps another one also returns the list of its calls of
  `next.ServeHTTP`.
* The logger and the metrics counters are left out.
* Go `int` is `Int`, wrapped to 64 bits where the code does arithmetic.
* `encoding/json`, `net/url`, `http.StatusText` and `gorm` are parameters (`Lib`).
-/

namespace models

/-- Error struct for any input field errors. -/
structure Error where
  Code : Int := 0
  Field : String := ""
  Error : String := ""
  deriving DecidableEq, Repr

/-- Links type. -/
structure Links where
  First : String := ""
  Prev : String := ""
  Next : String := ""
  Last : String := ""
  deriving DecidableEq, Repr

/-- Pet (`gorm.Model` contributes `ID`; its three timestamps are left out).  The Go field
`Type` is `Type_` here. -/
structure Pet where
  ID : Nat := 0
  Name : String := ""
  Type_ : String := ""
  Family : String := ""
  deriving DecidableEq, Repr

/-- The values that the handlers store in the `interface{}` field `Data`. -/
inductive Data where
  | nil
  | string (s : String)
  | pet (p : Pet)
  | pets (ps : List Pet)
  deriving DecidableEq, Repr

/-- APIResponse struct represents messages sent out by the api handler to the client. -/
structure APIResponse where
  StatusCode : Int := 0
  Description : String := ""
  Data : Data := Data.nil
  Links : Option Links := none
  Errors : List Error := []
  deriving DecidableEq, Repr

end models

namespace utils

open models

/-- How Go `json.NewDecoder(r.Body).Decode(&p)` ends for the handler receiver `p` of
package `pet`, a pointer to a struct without exported fields: with an error; with no error
and `p` still pointing to the handler (a JSON object); or with no error and `p` set to nil
(the JSON value `null`). -/
inductive ReceiverDecode where
  | failed (err : String)
  | kept
  | setNil
  deriving DecidableEq, Repr

/-- Library functions that the HTTP helpers and handlers call. -/
structure Lib where
  /-- Go `http.StatusText`. -/
  StatusText : Int → String
  /-- Go `json.Marshal` of an `APIResponse`. -/
  jsonMarshal : APIResponse → Except String (List UInt8)
  /-- Go `url.ParseQuery`; its error is discarded by the caller. -/
  ParseQuery : String → idpadapter.Values
  /-- Go `url.Values.Encode`. -/
  Encode : idpadapter.Values → String
  /-- Go `(*url.URL).String`. -/
  urlString : idpadapter.URL → String
  /-- Go `json.NewDecoder(r.Body).Decode(&p)` for the handler receiver `p` of package
  `pet`. -/
  decodeReceiver : List UInt8 → ReceiverDecode
  /-- Go `json.NewDecoder(r.Body).Decode(&newPet)` for a `models.Pet`. -/
  decodePet : List UInt8 → Except String Pet
  /-- Go `db.Save(&pet)` of gorm on the rows of the pet table: the rows after the call
  and the value of `pet` after the call. -/
  dbSave : List Pet → Pet → List Pet × Pet

/-- The state of an `http.ResponseWriter` that records what is written to it. -/
structure ResponseWriter where
  Header : List (String × String) := []
  wroteHeader : Bool := false
  Code : Int := 200
  Body : List UInt8 := []
  deriving DecidableEq, Repr

/-- The call `w.Header().Set(key, value)`. -/
def ResponseWriter.SetHeader (w : ResponseWriter) (key value : String) : ResponseWriter :=
  { w with Header := (w.Header.filter fun kv => kv.1 ≠ key) ++ [(key, value)] }

/-- The call `w.WriteHeader(status)`: only the first call sets the status. -/
def ResponseWriter.WriteHeader (w : ResponseWriter) (status : Int) : ResponseWriter :=
  if w.wroteHeader then w else { w with wroteHeader := true, Code := status }

/-- The call `w.Write(data)`: writes the header with status 200 if none was written. -/
def ResponseWriter.Write (w : ResponseWriter) (data : List UInt8) : ResponseWriter :=
  let w := if w.wroteHeader then w else w.WriteHeader 200
  { w with Body := w.Body ++ data }

/-- An incoming request: `Get` is `r.Header.Get`, `URLParam` is `chi.URLParam(r, key)`. -/
structure Request where
  Method : String := "GET"
  RequestURI : String := ""
  Get : String → String := fun _ => ""
  URLParam : String → String := fun _ => ""
  Body : List UInt8 := []

/-- Go `strconv.Itoa`. -/
def Itoa (i : Int) : String := toString i

/-- The function `writeRawResponse`. -/
def writeRawResponse (w : ResponseWriter) (status : Int) (data : List UInt8) :
    ResponseWriter :=
  let w := w.SetHeader "Content-Type" "application/json"
  let w := w.SetHeader "Content-Length" (Itoa data.length)
  let w := w.WriteHeader status
  w.Write data

/-- The bytes of `{"message":"unexpected server error"}`. -/
def unexpectedServerError : List UInt8 :=
  "\x7b\"message\":\"unexpected server error\"\x7d".toUTF8.toList

/-- The function `writeResponse`. -/
def writeResponse (lib : Lib) (w : ResponseWriter) (data : APIResponse) : ResponseWriter :=
  let data :=
    if data.StatusCode = 0 then
      if data.Errors.length = 0 then { data with StatusCode := 200 }
      else { data with StatusCode := 500 }
    else data
  let data :=
    if data.Description = "" then
      { data with Description := lib.StatusText data.StatusCode }
    else data
  match lib.jsonMarshal data with
  | .error _ => writeRawResponse w 500 unexpectedServerError
  | .ok j => writeRawResponse w data.StatusCode j

/-- OKResponse writes back data as json with a status of 200. -/
def OKResponse (lib : Lib) (w : ResponseWriter) (data : Data) : ResponseWriter :=
  writeResponse lib w { StatusCode := 200, Data := data }

/-- CreatedResponse writes back data as json with a status of 201. -/
def CreatedResponse (lib : Lib) (w : ResponseWriter) (data : Data) : ResponseWriter :=
  writeResponse lib w { StatusCode := 201, Data := data }

/-- BadRequestResponse writes back errors as json with a status of 400. -/
def BadRequestResponse (lib : Lib) (w : ResponseWriter) (errMsgs : List String) :
    ResponseWriter :=
  writeResponse lib w
    { StatusCode := 400, Errors := errMsgs.map fun errMsg => { Error := errMsg } }

/-- UnauthorizedResponse writes back errors as json with a status of 401. -/
def UnauthorizedResponse (lib : Lib) (w : ResponseWriter) (errMsgs : List String) :
    ResponseWriter :=
  writeResponse lib w
    { StatusCode := 401, Errors := errMsgs.map fun errMsg => { Error := errMsg } }

/-- NotFoundResponse writes back errors as json with a status of 404. -/
def NotFoundResponse (lib : Lib) (w : ResponseWriter) (errMsgs : List String) :
    ResponseWriter :=
  writeResponse lib w
    { StatusCode := 404, Errors := errMsgs.map fun errMsg => { Error := errMsg } }

/-- HTTPRequest struct: the embedded `*http.Request`, of which `URL` is used. -/
structure HTTPRequest where
  URL : idpadapter.URL
  deriving DecidableEq, Repr

/-- Go `url.Values.Set`: the key holds the single value afterwards. -/
def valuesSet (values : idpadapter.Values) (key value : String) : idpadapter.Values :=
  (values.filter fun kv => kv.1 ≠ key) ++ [(key, [value])]

/-- Go `url.Values.Get`: the first value of the key, or the empty string. -/
def valuesGet (values : idpadapter.Values) (key : String) : String :=
  match values.lookup key with
  | some (value :: _) => value
  | _ => ""

/-- The page link for an offset: the URL of the request with `limit` and `offset` set in
its parsed query. -/
def pageLink (lib : Lib) (req : HTTPRequest) (limit : Int) (offset : String) : String :=
  lib.urlString
    { req.URL with
      RawQuery :=
        lib.Encode
          (valuesSet (valuesSet (lib.ParseQuery req.URL.RawQuery) "limit" (Itoa limit))
            "offset" offset) }

/-- The result of an `int` operation whose exact value is `x`: wrapped to 64 bits. -/
def wrapInt (x : Int) : Int := (x + 2 ^ 63) % 2 ^ 64 - 2 ^ 63

/-- The function `isPaginationParamsProper`. -/
def isPaginationParamsProper (responseSize limit offset : Int) : Bool :=
  decide (responseSize ≥ 0) && decide (limit ≥ 0) && decide (offset ≥ 0)

/-- GetPaginationLinks is a utility that helps paginated apis to return next page,
previous page and last page links.  `path` is the pointer `req.URL`, so the request is
returned as well, with the query the function left in its URL. -/
def GetPaginationLinks (lib : Lib) (req : HTTPRequest) (responseSize limit offset : Int) :
    Links × HTTPRequest :=
  if !isPaginationParamsProper responseSize limit offset then
    ({}, req)
  else
    let path := req.URL
    let values := lib.ParseQuery path.RawQuery
    let values := valuesSet values "limit" (Itoa limit)
    let values := valuesSet values "offset" "0"
    let path := { path with RawQuery := lib.Encode values }
    let links : Links := { First := lib.urlString path }
    let nextOffset := wrapInt (offset + limit)
    let prevOffset := wrapInt (offset - limit)
    let state : idpadapter.Values × idpadapter.URL × Links :=
      if responseSize < limit then
        let values := valuesSet values "offset" (Itoa offset)
        let path := { path with RawQuery := lib.Encode values }
        (values, path, { links with Last := lib.urlString path })
      else
        let values := valuesSet values "offset" (Itoa nextOffset)
        let path := { path with RawQuery := lib.Encode values }
        (values, path, { links with Next := lib.urlString path })
    let state : idpadapter.Values × idpadapter.URL × Links :=
      if prevOffset ≥ 0 then
        let values := valuesSet state.1 "offset" (Itoa prevOffset)
        let path := { state.2.1 with RawQuery := lib.Encode values }
        (values, path, { state.2.2 with Prev := lib.urlString path })
      else state
    (state.2.2, { req with URL := state.2.1 })

end utils

namespace device

open models utils

/-- GetDeviceHandler answers with the zone of the device named by the URL parameter
`deviceID`. -/
def GetDeviceHandler (lib : Lib) (w : ResponseWriter) (r : Request) : ResponseWriter :=
  let deviceID := r.URLParam "deviceID"
  if deviceID = "A" then OKResponse lib w (Data.string "Plumbing")
  else if deviceID = "B" then OKResponse lib w (Data.string "Gardening")
  else if deviceID = "C" then OKResponse lib w (Data.string "Lighting")
  else if deviceID = "D" then OKResponse lib w (Data.string "FrontDesk")
  else NotFoundResponse lib w ["Unknown Device Specified"]

end device

namespace middleware

open models utils

/-- A handler that may wrap another one: the writer after the call and the request URIs
passed to `next.ServeHTTP`, in order. -/
abbrev Handler := ResponseWriter → Request → ResponseWriter × List String

/-- The header that carries the shared access key. -/
def SharedAccessKeyHeader : String := "X-API-ACCESS-KEY"

/-- The shared access key. -/
def sharedAccessKeySecret : String := "c94bcd16-5e7c-4d41-95b0-70c9610e5663"

/-- SharedKeyMiddleware (documented in the source as authenticating requests). -/
def SharedKeyMiddleware (lib : Lib) (next : Handler) : Handler := fun w r =>
  if r.Get SharedAccessKeyHeader ≠ sharedAccessKeySecret then
    (UnauthorizedResponse lib w [], [])
  else
    let served := next w r
    (served.1, r.RequestURI :: served.2)

/-- OAuthMiddleware adds Mux middleware operations to authenticate requests.  The check
of the `Authorization` header is commented out in the source. -/
def OAuthMiddleware (next : Handler) : Handler := fun w r =>
  let served := next w r
  (served.1, r.RequestURI :: served.2)

/-- A handler that wraps no other one, as a `Handler`. -/
def leaf (h : ResponseWriter → Request → ResponseWriter) : Handler := fun w r => (h w r, [])

end middleware

namespace pet

open models utils

/-- PostPetByID (documented in the source as updating one pet by id).  The request body
is decoded into the receiver `p`, not into `newPet`; `db` holds the rows of the pet
table.  After a decode that set `p` to nil, `p.db` is the dereference of a nil pointer. -/
def PostPetByID (lib : Lib) (db : List Pet) (w : ResponseWriter) (r : Request) :
    idpadapter.Outcome (List Pet × ResponseWriter) :=
  let newPet : Pet := {}
  match lib.decodeReceiver r.Body with
  | .failed err => .returned (db, BadRequestResponse lib w [err])
  | .setNil => .nilDereference
  | .kept =>
    let saved := lib.dbSave db newPet
    let db := saved.1
    let newPet := saved.2
    .returned (db, CreatedResponse lib w (Data.pet newPet))

end pet

namespace logger

/-!
# Tracking ids and time stamps (package `logger`, `logger.go` and `uuid.go`)

A Go `map[string]string` is the list of its entries in the order the keys were first
set; `fmt.Sprintf` with `%s` verbs is concatenation.
-/

/-- Go `fmt` verb `%v` on a `[]string`. -/
def fmtV (pairs : List String) : String := "[" ++ " ".intercalate pairs ++ "]"

/-- The function `checkPairs` returns the count of strings passed in, and an error if
the count is not an even number. -/
def checkPairs (pairs : List String) : Nat × Option String :=
  let length := pairs.length
  if length % 2 ≠ 0 then
    (length, some ("number of parameters must be multiple of 2, got " ++ fmtV pairs))
  else (length, none)

/-- The loop of `mapFromPairsToString`: it reads `pairs[i]` and `pairs[i+1]` for
`i = 0, 2, ...` below the even length, that is the list two elements at a time. -/
def appendPairs : List String → String → String
  | name :: value :: rest, nvs => appendPairs rest (nvs ++ "_" ++ name ++ ":" ++ value)
  | _, nvs => nvs

/-- The function `mapFromPairsToString` converts variadic string parameters to a
string. -/
def mapFromPairsToString (pairs : List String) : String × Option String :=
  match checkPairs pairs with
  | (_, some err) => ("", some err)
  | (_, none) => (appendPairs pairs "", none)

/-- AddTrackingNameValuePairs adds Key:Value pairs to the TrackingID. -/
def AddTrackingNameValuePairs (trackingID : String) (pairs : List String) :
    String × Option String :=
  match mapFromPairsToString pairs with
  | (_, some err) => (trackingID, some err)
  | (nvs, none) => (trackingID ++ nvs, none)

/-- Splitting a list of characters at every occurrence of `sep`. -/
def splitChars (sep : Char) : List Char → List (List Char)
  | [] => [[]]
  | c :: cs =>
    if c = sep then [] :: splitChars sep cs
    else
      match splitChars sep cs with
      | [] => [[c]]
      | part :: parts => (c :: part) :: parts

/-- Go `strings.Split(s, sep)` for a separator of one character. -/
def Split (s : String) (sep : Char) : List String :=
  (splitChars sep s.data).map String.mk

/-- The assignment `pairs[name] = value` on a `map[string]string`. -/
def mapSet (pairs : List (String × String)) (name value : String) :
    List (String × String) :=
  if pairs.any fun kv => kv.1 = name then
    pairs.map fun kv => if kv.1 = name then (name, value) else kv
  else pairs ++ [(name, value)]

/-- The loop of `TrackingNameValuePairs` over `parts[2:]`. -/
def collectPairs : List String → List (String × String) →
    List (String × String) × Option String
  | [], pairs => (pairs, none)
  | part :: rest, pairs =>
    match Split part ':' with
    | [name, value] => collectPairs rest (mapSet pairs name value)
    | _ => ([], some ("name:value wrong format " ++ part))

/-- TrackingNameValuePairs returns Key:Value pairs from TrackingID as string to string
map. -/
def TrackingNameValuePairs (trackingID : String) :
    List (String × String) × Option String :=
  let parts := Split trackingID '_'
  if parts.length < 3 then
    ([], some ("name:value pairs are not found in trackingID " ++ trackingID))
  else collectPairs (parts.drop 2) []

/-- The variadic argument list `name1, value1, name2, value2, ...` of a list of
name:value pairs. -/
def flattenPairs : List (String × String) → List String
  | [] => []
  | (name, value) :: rest => name :: value :: flattenPairs rest

/-- The characters that `AddTrackingNameValuePairs` appends for a list of pairs:
`_name:value` for each pair. -/
def renderPairs : List (String × String) → List Char
  | [] => []
  | (name, value) :: rest => '_' :: (name.data ++ ':' :: (value.data ++ renderPairs rest))

/-- The clock and the calendar: `time.Now()` and `time.Time.AddDate`. -/
structure Clock where
  Now : idpadapter.Time
  AddDate : idpadapter.Time → Int → Int → Int → idpadapter.Time

/-- Go `time.Time.After`: comparison of the instants. -/
def After (t u : idpadapter.Time) : Bool :=
  decide (t.sec > u.sec ∨ (t.sec = u.sec ∧ t.nsec > u.nsec))

/-- Go `time.Time.Before`: comparison of the instants. -/
def Before (t u : idpadapter.Time) : Bool :=
  decide (t.sec < u.sec ∨ (t.sec = u.sec ∧ t.nsec < u.nsec))

/-- The constant `validYears`. -/
def validYears : Int := 10

/-- IsTimeStampValid (documented in the source: if time before now and after
-validYears). -/
def IsTimeStampValid (clock : Clock) (stamp : idpadapter.Time) : Bool :=
  let now := clock.AddDate clock.Now 0 0 1
  if After stamp now then false
  else if Before stamp (clock.AddDate now (-validYears) 0 0) then false
  else true

/-- A clock at 2021-01-01T00:00:00Z (Unix time 1609459200) in UTC.  `AddDate` is exact
for the two calls that `IsTimeStampValid` makes at this instant: one day later is 86400
seconds later, and ten years before 2021-01-02 is 3653 days earlier. -/
def exampleClock : Clock :=
  { Now := { sec := 1609459200 }
    AddDate := fun t years _ days =>
      { t with sec := t.sec + days * 86400 + years * 31561920 } }

/-! ## UUID (uuid.go)

A byte is a natural number below 256; a `[]byte` or a Go string is the list of its
bytes.  Slicing and indexing are checked against the length of the list, and a failed
check ends the call with `Run.indexOutOfRange`. -/

/-- How a call ends: it returns its results, or an index or slice bound is out of
range. -/
inductive Run (α : Type) where
  | returned (a : α)
  | indexOutOfRange
  deriving DecidableEq, Repr

/-- The errors of `UnmarshalText`: `uuid: incorrect UUID length: <text>`,
`uuid: incorrect UUID format <src>`, and the errors `InvalidByteError` and `ErrLength`
of `encoding/hex`. -/
inductive UnmarshalError where
  | incorrectLength (text : List Nat)
  | incorrectFormat (src : List Nat)
  | invalidByte (c : Nat)
  | errLength
  deriving DecidableEq, Repr

/-- UUID as a byte array (`[16]byte`). -/
structure UUID where
  bytes : List Nat
  deriving DecidableEq, Repr

/-- The constant `uuidStringLength`. -/
def uuidStringLength : Nat := 36

/-- The constant `uuidBytesLength`. -/
def uuidBytesLength : Nat := 16

/-- The character `-`. -/
def dash : Nat := 45

/-- The digit of `d` in `0123456789abcdef`. -/
def hexDigit (d : Nat) : Nat := if d < 10 then 48 + d else 87 + d

/-- Go `fmt` verb `%x` on a byte slice: two lower-case hexadecimal digits per byte, for
the high four bits (`b >> 4`) and the low four bits (`b & 0x0f`) of the byte. -/
def hexEncode : List Nat → List Nat
  | [] => []
  | b :: bs => hexDigit (b / 16 % 16) :: hexDigit (b % 16) :: hexEncode bs

/-- String return string: `%x-%x-%x-%x-%x` of `ud[0:4]`, `ud[4:6]`, `ud[6:8]`,
`ud[8:10]` and `ud[10:]`. -/
def UUID.String (ud : UUID) : List Nat :=
  hexEncode (ud.bytes.take 4) ++ dash :: (hexEncode ((ud.bytes.drop 4).take 2) ++
    dash :: (hexEncode ((ud.bytes.drop 6).take 2) ++
      dash :: (hexEncode ((ud.bytes.drop 8).take 2) ++
        dash :: hexEncode (ud.bytes.drop 10))))

/-- MarshalText text: the encoding is the same as returned by String. -/
def UUID.MarshalText (ud : UUID) : List Nat × Option UnmarshalError :=
  (ud.String, none)

/-- Go `fromHexChar` of `encoding/hex`. -/
def fromHexChar (c : Nat) : Option Nat :=
  if 48 ≤ c ∧ c ≤ 57 then some (c - 48)
  else if 97 ≤ c ∧ c ≤ 102 then some (c - 97 + 10)
  else if 65 ≤ c ∧ c ≤ 70 then some (c - 65 + 10)
  else none

/-- The byte `(a << 4) | b`. -/
def joinNibbles (a b : Nat) : Nat := (a <<< 4 ||| b) % 256

/-- The loop of Go `hex.Decode(dst, src)` from the write position `i`: the slice `dst`
after the call, the number of bytes written and the error. -/
def hexDecodeLoop : List Nat → Nat → List Nat → Run (List Nat × Nat × Option UnmarshalError)
  | dst, i, a :: b :: rest =>
    match fromHexChar a with
    | none => Run.returned (dst, i, some (UnmarshalError.invalidByte a))
    | some x =>
      match fromHexChar b with
      | none => Run.returned (dst, i, some (UnmarshalError.invalidByte b))
      | some y =>
        if i < dst.length then hexDecodeLoop (dst.set i (joinNibbles x y)) (i + 1) rest
        else Run.indexOutOfRange
  | dst, i, [a] =>
    match fromHexChar a with
    | none => Run.returned (dst, i, some (UnmarshalError.invalidByte a))
    | some _ => Run.returned (dst, i, some UnmarshalError.errLength)
  | dst, i, [] => Run.returned (dst, i, none)

/-- Go `hex.Decode(dst, src)`. -/
def hexDecode (dst src : List Nat) : Run (List Nat × Nat × Option UnmarshalError) :=
  hexDecodeLoop dst 0 src

/-- The loop of `UnmarshalText` over the remaining `byteGroups`, in iteration `i`: `src`
is the rest of the text, and `dst` is the array `ud` from the offset `off` on.  The
result is the array after the loop and the error. -/
def unmarshalGroups : List Nat → Nat → List Nat → Nat → List Nat →
    Run (List Nat × Option UnmarshalError)
  | [], _, _, _, ud => Run.returned (ud, none)
  | byteGroup :: byteGroups, i, src, off, ud =>
    -- if i > 0 { src = src[1:] }
    if i > 0 ∧ src.length < 1 then Run.indexOutOfRange
    else
      let src := if i > 0 then src.drop 1 else src
      -- hex.Decode(dst[:byteGroup/2], src[:byteGroup])
      if ud.length - off < byteGroup / 2 ∨ src.length < byteGroup then Run.indexOutOfRange
      else
        match hexDecode ((ud.drop off).take (byteGroup / 2)) (src.take byteGroup) with
        | Run.indexOutOfRange => Run.indexOutOfRange
        | Run.returned (written, _, err) =>
          let ud := ud.take off ++ written ++ ud.drop (off + byteGroup / 2)
          match err with
          | some e => Run.returned (ud, some e)
          | none =>
            -- src = src[byteGroup:]; dst = dst[byteGroup/2:]
            unmarshalGroups byteGroups (i + 1) (src.drop byteGroup) (off + byteGroup / 2) ud

/-- UnmarshalText text: the receiver after the call and the error. -/
def UUID.UnmarshalText (ud : UUID) (text : List Nat) : Run (UUID × Option UnmarshalError) :=
  let byteGroups := [8, 4, 4, 4, 12]
  if text.length ≠ uuidStringLength then
    Run.returned (ud, some (UnmarshalError.incorrectLength text))
  else
    let src := text
    match src[8]?, src[13]?, src[18]?, src[23]? with
    | some c8, some c13, some c18, some c23 =>
      if c8 ≠ dash ∨ c13 ≠ dash ∨ c18 ≠ dash ∨ c23 ≠ dash then
        Run.returned (ud, some (UnmarshalError.incorrectFormat src))
      else
        match unmarshalGroups byteGroups 0 src 0 ud.bytes with
        | Run.indexOutOfRange => Run.indexOutOfRange
        | Run.returned (bytes, err) => Run.returned (⟨bytes⟩, err)
    | _, _, _, _ => Run.indexOutOfRange

/-- FromString get uuid from string. -/
def FromString (input : List Nat) : Run (UUID × Option UnmarshalError) :=
  UUID.UnmarshalText ⟨List.replicate uuidBytesLength 0⟩ input

/-- A character that `fromHexChar` accepts: a digit, or a letter `a` to `f` in either
case. -/
def isHexChar (c : Nat) : Prop := (48 ≤ c ∧ c ≤ 57) ∨ (97 ≤ c ∧ c ≤ 102) ∨ (65 ≤ c ∧ c ≤ 70)

/-- A lower-case hexadecimal digit. -/
def isLowerHexChar (c : Nat) : Prop := (48 ≤ c ∧ c ≤ 57) ∨ (97 ≤ c ∧ c ≤ 102)

/-- The characters that the loop of `UnmarshalText` hands to `hex.Decode` for the
remaining groups are all hexadecimal. -/
def hexGroups : List Nat → Nat → List Nat → Prop
  | [], _, _ => True
  | byteGroup :: byteGroups, i, src =>
    (∀ c ∈ (if i > 0 then src.drop 1 else src).take byteGroup, isHexChar c) ∧
      hexGroups byteGroups (i + 1) ((if i > 0 then src.drop 1 else src).drop byteGroup)

/-- The number of characters that the loop of `UnmarshalText` consumes for the
remaining groups. -/
def textNeeded : List Nat → Nat → Nat
  | [], _ => 0
  | byteGroup :: byteGroups, i =>
    (if i > 0 then 1 else 0) + byteGroup + textNeeded byteGroups (i + 1)

/-- The number of bytes that the loop of `UnmarshalText` writes for the remaining
groups. -/
def bytesNeeded : List Nat → Nat
  | [] => 0
  | byteGroup :: byteGroups => byteGroup / 2 + bytesNeeded byteGroups

/-- The UUID `12345678-9abc-def0-0102-0304050607ff`. -/
def exampleUUID : UUID :=
  ⟨[0x12, 0x34, 0x56, 0x78, 0x9a, 0xbc, 0xde, 0xf0, 1, 2, 3, 4, 5, 6, 7, 0xff]⟩

end logger

/-! ## Concrete library, requests and handlers for the HTTP side -/

namespace utils

open models

/-- The bytes of the request body that is the JSON object with `Name` Rex, `Type` dog
and `Family` canine, written without blanks. -/
def rexBody : List UInt8 :=
  [123, 34, 78, 97, 109, 101, 34, 58, 34, 82, 101, 120, 34, 44, 34, 84, 121, 112, 101,
   34, 58, 34, 100, 111, 103, 34, 44, 34, 70, 97, 109, 105, 108, 121, 34, 58, 34, 99,
   97, 110, 105, 110, 101, 34, 125]

/-- The bytes of the request body `null`. -/
def nullBody : List UInt8 := [110, 117, 108, 108]

/-- A library whose marshaller writes one byte, the status code, and whose URLs are
rendered as path, `?` and query.  Its JSON decoder knows the body of the pet Rex, the
body `null` and the empty body, and reads any other body as the malformed body `x`. -/
def exampleLib : Lib :=
  { StatusText := fun code =>
      if code = 200 then "OK" else if code = 201 then "Created"
      else if code = 400 then "Bad Request" else if code = 401 then "Unauthorized"
      else if code = 404 then "Not Found" else "Internal Server Error"
    jsonMarshal := fun resp => .ok [UInt8.ofNat resp.StatusCode.toNat]
    ParseQuery := fun _ => []
    Encode := fun values =>
      "&".intercalate (values.map fun kv => kv.1 ++ "=" ++ ",".intercalate kv.2)
    urlString := fun u => u.Path ++ "?" ++ u.RawQuery
    decodeReceiver := fun body =>
      if body = rexBody then .kept
      else if body = nullBody then .setNil
      else if body = [] then .failed "EOF"
      else .failed "invalid character 'x' looking for beginning of value"
    decodePet := fun body =>
      if body = rexBody then .ok { Name := "Rex", Type_ := "dog", Family := "canine" }
      else if body = nullBody then .ok {}
      else if body = [] then .error "EOF"
      else .error "invalid character 'x' looking for beginning of value"
    dbSave := fun db pet =>
      (db ++ [{ pet with ID := db.length + 1 }], { pet with ID := db.length + 1 }) }

/-- The request for a page of `/v1/pet`, without a query. -/
def petPageRequest : HTTPRequest := { URL := { Path := "/v1/pet" } }

/-- The request `GET /v1/device/A` without any header. -/
def deviceRequestA : Request :=
  { RequestURI := "/v1/device/A", URLParam := fun key => if key = "deviceID" then "A" else "" }

end utils

namespace idpadapter

/-! ## Unfolding lemmas -/

/-- With the raw token found, verified and decoded, the result is decided by the chain
of claim checks. -/
theorem VerifyIDToken_of_decoded (w : World) (ia : IdentityProviderAdapter) (token : Token)
    (rawIDToken : String) (idToken : IDToken) (idClaims : IDTokenClaims)
    (hraw : token.Extra "id_token" = Value.string rawIDToken)
    (hsig : ia.oidcProvider.Verify ia.oidcConfig rawIDToken = .ok idToken)
    (hdec : w.idTokenClaims idToken = .ok idClaims) :
    VerifyIDToken w ia token =
      (if idClaims.IssuedAt > w.unixNow then ⟨none, "", some "invalid jwt iat"⟩
       else if idClaims.ExpiresAt < w.unixNow then ⟨none, "", some "invalid jwt exp"⟩
       else if idClaims.Issuer ≠ ia.Issuer then ⟨none, "", some "invalid jwt iss"⟩
       else if idClaims.Audience ≠ ia.ClientID then ⟨none, "", some "invalid jwt aud"⟩
       else ⟨some idClaims, rawIDToken, none⟩,
       [Call.Verify rawIDToken, Call.Claims, Call.Now]) := by
  unfold VerifyIDToken
  simp only [hraw, hsig, hdec]
  split_ifs <;> rfl

/-- With the signature verified and the payload decoded, the result is decided by the
chain of claim checks. -/
theorem VerifyJWTAccessToken_of_decoded (w : World) (ia : IdentityProviderAdapter)
    (jwt : String) (payload : List UInt8) (accessClaims : AccessTokenClaims)
    (hsig : ia.jwksAccessTokenKeySet.VerifySignature jwt = .ok payload)
    (hdec : w.unmarshalAccessTokenClaims payload = .ok accessClaims) :
    VerifyJWTAccessToken w ia jwt =
      (if accessClaims.IssuedAt > w.unixNow then ⟨none, some "invalid jwt iat"⟩
       else if accessClaims.ExpiresAt < w.unixNow then ⟨none, some "invalid jwt expired"⟩
       else if accessClaims.NotBefore > w.unixNow then ⟨none, some "invalid jwt nbf"⟩
       else if accessClaims.Issuer ≠ ia.Issuer then ⟨none, some "invalid jwt iss"⟩
       else if accessClaims.Audience ≠ ia.Audience then ⟨none, some "invalid jwt aud"⟩
       else if accessClaims.ClientID ≠ "" ∧ accessClaims.ClientID ≠ ia.ClientID then
         ⟨none, some "invalid jwt cid"⟩
       else ⟨some accessClaims, none⟩,
       [Call.VerifySignature jwt, Call.Unmarshal payload, Call.Now]) := by
  unfold VerifyJWTAccessToken
  simp only [hsig, hdec]
  split_ifs <;> rfl

/-! ## VerifyIDToken -/

/-- C1: for an ID token whose signature verifies and whose claims decode, and for every
current time, `VerifyIDToken` succeeds exactly when `iat <= now`, `exp >= now`, `iss` is
the adapter's `Issuer` and `aud` is the adapter's `ClientID`. -/
theorem VerifyIDToken_succeeds_iff (w : World) (ia : IdentityProviderAdapter)
    (token : Token) (rawIDToken : String) (idToken : IDToken) (idClaims : IDTokenClaims)
    (hraw : token.Extra "id_token" = Value.string rawIDToken)
    (hsig : ia.oidcProvider.Verify ia.oidcConfig rawIDToken = .ok idToken)
    (hdec : w.idTokenClaims idToken = .ok idClaims) :
    (VerifyIDToken w ia token).1.err = none ↔
      idClaims.IssuedAt ≤ w.unixNow ∧ idClaims.ExpiresAt ≥ w.unixNow ∧
        idClaims.Issuer = ia.Issuer ∧ idClaims.Audience = ia.ClientID := by
  rw [VerifyIDToken_of_decoded w ia token rawIDToken idToken idClaims hraw hsig hdec]
  split_ifs with h1 h2 h3 h4 <;> simp_all

/-- Witness of C1: the valid token of the example provider is accepted. -/
theorem VerifyIDToken_succeeds_iff_witness :
    (VerifyIDToken exampleWorld exampleAdapter (tokenWithIDToken "jwt1")).1.err = none ∧
    ((VerifyIDToken exampleWorld exampleAdapter (tokenWithIDToken "jwt1")).1.err = none ↔
      aliceClaims.IssuedAt ≤ exampleWorld.unixNow ∧
        aliceClaims.ExpiresAt ≥ exampleWorld.unixNow ∧
        aliceClaims.Issuer = exampleAdapter.Issuer ∧
        aliceClaims.Audience = exampleAdapter.ClientID) :=
  ⟨by decide,
   VerifyIDToken_succeeds_iff exampleWorld exampleAdapter (tokenWithIDToken "jwt1") "jwt1"
    ⟨[1]⟩ aliceClaims (by decide) rfl rfl⟩

/-- C2 (counterexample): the example verifier makes the checks that the go-oidc verifier
makes for the configuration of `New`.  It rejects the otherwise valid token with
`exp = now - 1`, and `VerifyIDToken` reports the verifier's error under
`verifying jwt signature: `, not the expiry reason; likewise for the token with
`aud = "other"` and for the token with `iss = "https://evil.example.com"`.  The token that
fails all four checks fails with the verifier's issuer error, not with the issued-at
reason. -/
theorem VerifyIDToken_verifier_decides_first :
    (VerifyIDToken exampleWorld exampleAdapter (tokenWithIDToken "jwt2")).1.err
      = some ("verifying jwt signature: "
          ++ "oidc: token is expired (Token Expiry: 1970-01-01 00:16:39 +0000 UTC)") ∧
    (VerifyIDToken exampleWorld exampleAdapter (tokenWithIDToken "jwt2")).1.err
      ≠ some "invalid jwt exp" ∧
    (VerifyIDToken exampleWorld exampleAdapter (tokenWithIDToken "jwt3")).1.err
      = some ("verifying jwt signature: "
          ++ "oidc: expected audience \"abc123\" got [\"other\"]") ∧
    (VerifyIDToken exampleWorld exampleAdapter (tokenWithIDToken "jwt3")).1.err
      ≠ some "invalid jwt aud" ∧
    (VerifyIDToken exampleWorld exampleAdapter (tokenWithIDToken "jwt4")).1.err
      = some ("verifying jwt signature: "
          ++ "oidc: id token issued by a different provider, expected "
          ++ "\"https://idp.example.com\" got \"https://evil.example.com\"") ∧
    (VerifyIDToken exampleWorld exampleAdapter (tokenWithIDToken "jwt4")).1.err
      ≠ some "invalid jwt iss" ∧
    (VerifyIDToken exampleWorld exampleAdapter (tokenWithIDToken "jwt5")).1.err
      = some ("verifying jwt signature: "
          ++ "oidc: id token issued by a different provider, expected "
          ++ "\"https://idp.example.com\" got \"https://evil.example.com\"") ∧
    (VerifyIDToken exampleWorld exampleAdapter (tokenWithIDToken "jwt5")).1.err
      ≠ some "invalid jwt iat" := by
  decide

/-- C2 (amended): `VerifyIDToken` reports the reason of the first failing step in the
order verifier, issued-at, expiry, issuer, audience.  When the verifier rejects the token,
with whatever error, the result is that error under `verifying jwt signature: `, and
neither the decoder nor the clock has been called.  For a token that the verifier accepts
and whose claims decode, a check decides the reason exactly when all checks before it
pass. -/
theorem VerifyIDToken_first_failing_check (w : World) (ia : IdentityProviderAdapter)
    (token : Token) (rawIDToken : String)
    (hraw : token.Extra "id_token" = Value.string rawIDToken) :
    (∀ e : String, ia.oidcProvider.Verify ia.oidcConfig rawIDToken = .error e →
      VerifyIDToken w ia token =
        (⟨none, "", some ("verifying jwt signature: " ++ e)⟩, [Call.Verify rawIDToken])) ∧
    (∀ (idToken : IDToken) (idClaims : IDTokenClaims),
      ia.oidcProvider.Verify ia.oidcConfig rawIDToken = .ok idToken →
      w.idTokenClaims idToken = .ok idClaims →
      (idClaims.IssuedAt > w.unixNow →
        (VerifyIDToken w ia token).1.err = some "invalid jwt iat") ∧
      (idClaims.IssuedAt ≤ w.unixNow → idClaims.ExpiresAt < w.unixNow →
        (VerifyIDToken w ia token).1.err = some "invalid jwt exp") ∧
      (idClaims.IssuedAt ≤ w.unixNow → idClaims.ExpiresAt ≥ w.unixNow →
        idClaims.Issuer ≠ ia.Issuer →
        (VerifyIDToken w ia token).1.err = some "invalid jwt iss") ∧
      (idClaims.IssuedAt ≤ w.unixNow → idClaims.ExpiresAt ≥ w.unixNow →
        idClaims.Issuer = ia.Issuer → idClaims.Audience ≠ ia.ClientID →
        (VerifyIDToken w ia token).1.err = some "invalid jwt aud")) := by
  refine ⟨fun e hsig => ?_, fun idToken idClaims hsig hdec => ?_⟩
  · unfold VerifyIDToken
    simp only [hraw, hsig]
  · rw [VerifyIDToken_of_decoded w ia token rawIDToken idToken idClaims hraw hsig hdec]
    refine ⟨fun h1 => ?_, fun h1 h2 => ?_, fun h1 h2 h3 => ?_, fun h1 h2 h3 h4 => ?_⟩
    · simp [h1]
    · simp [not_lt.mpr h1, h2]
    · simp [not_lt.mpr h1, not_lt.mpr h2, h3]
    · simp [not_lt.mpr h1, not_lt.mpr h2, h3, h4]

/-- Witness of C2 (amended): the expired token of the example is rejected by the verifier,
whose error is reported; the token issued in the future passes the verifier and fails the
issued-at check. -/
theorem VerifyIDToken_first_failing_check_witness :
    VerifyIDToken exampleWorld exampleAdapter (tokenWithIDToken "jwt2") =
      (⟨none, "", some ("verifying jwt signature: "
          ++ "oidc: token is expired (Token Expiry: 1970-01-01 00:16:39 +0000 UTC)")⟩,
        [Call.Verify "jwt2"]) ∧
    (VerifyIDToken exampleWorld exampleAdapter (tokenWithIDToken "jwt6")).1.err
      = some "invalid jwt iat" :=
  ⟨(VerifyIDToken_first_failing_check exampleWorld exampleAdapter (tokenWithIDToken "jwt2")
      "jwt2" (by decide)).1
      "oidc: token is expired (Token Expiry: 1970-01-01 00:16:39 +0000 UTC)" rfl,
   ((VerifyIDToken_first_failing_check exampleWorld exampleAdapter (tokenWithIDToken "jwt6")
      "jwt6" (by decide)).2 ⟨[6]⟩ { aliceClaims with IssuedAt := 2000, ExpiresAt := 2600 }
      rfl rfl).1 (by decide)⟩

/-- C7: when the `id_token` extra field of the exchange result is absent or not a string,
`VerifyIDToken` fails with the missing-id-token error, and it has made no call to the
verifier, the decoder or the clock. -/
theorem VerifyIDToken_missing_id_token (w : World) (ia : IdentityProviderAdapter)
    (token : Token) (hraw : ∀ s : String, token.Extra "id_token" ≠ Value.string s) :
    VerifyIDToken w ia token =
      (⟨none, "", some "no id_token field in oauth2 token"⟩, []) := by
  unfold VerifyIDToken
  split
  · next rawIDToken h => exact absurd h (hraw rawIDToken)
  · rfl

/-- Witness of C7: an exchange result whose `id_token` field is a number. -/
theorem VerifyIDToken_missing_id_token_witness :
    VerifyIDToken exampleWorld exampleAdapter
        { AccessToken := "opaque", extra := fun _ => Value.int64 17 } =
      (⟨none, "", some "no id_token field in oauth2 token"⟩, []) :=
  VerifyIDToken_missing_id_token exampleWorld exampleAdapter
    { AccessToken := "opaque", extra := fun _ => Value.int64 17 }
    (fun s h => by cases h)

/-- C8: whenever `VerifyIDToken` returns an error, the returned claims are nil and the
returned raw token is empty; whenever it succeeds, the returned raw token is the
`id_token` extra field of the input, it passed the verifier, the returned claims are the
ones decoded from it, and all four claim checks hold of them. -/
theorem VerifyIDToken_claims_only_after_checks (w : World) (ia : IdentityProviderAdapter)
    (token : Token) :
    ((VerifyIDToken w ia token).1.err ≠ none →
      (VerifyIDToken w ia token).1.claims = none ∧
        (VerifyIDToken w ia token).1.rawIDToken = "") ∧
    ((VerifyIDToken w ia token).1.err = none →
      ∃ (idToken : IDToken) (idClaims : IDTokenClaims),
        token.Extra "id_token" = Value.string (VerifyIDToken w ia token).1.rawIDToken ∧
        ia.oidcProvider.Verify ia.oidcConfig (VerifyIDToken w ia token).1.rawIDToken
          = .ok idToken ∧
        w.idTokenClaims idToken = .ok idClaims ∧
        (VerifyIDToken w ia token).1.claims = some idClaims ∧
        idClaims.IssuedAt ≤ w.unixNow ∧ idClaims.ExpiresAt ≥ w.unixNow ∧
        idClaims.Issuer = ia.Issuer ∧ idClaims.Audience = ia.ClientID) := by
  cases hraw : token.Extra "id_token" with
  | string rawIDToken =>
    cases hsig : ia.oidcProvider.Verify ia.oidcConfig rawIDToken with
    | error err => simp [VerifyIDToken, hraw, hsig]
    | ok idToken =>
      cases hdec : w.idTokenClaims idToken with
      | error err => simp [VerifyIDToken, hraw, hsig, hdec]
      | ok idClaims =>
        rw [VerifyIDToken_of_decoded w ia token rawIDToken idToken idClaims hraw hsig hdec]
        split_ifs with h1 h2 h3 h4
        · simp
        · simp
        · simp
        · simp
        · refine ⟨fun h => absurd rfl h, fun _ => ⟨idToken, idClaims, rfl, hsig, hdec, rfl,
            not_lt.mp h1, not_lt.mp h2, not_not.mp h3, not_not.mp h4⟩⟩
  | nil => simp [VerifyIDToken, hraw]
  | int64 i => simp [VerifyIDToken, hraw]
  | bool b => simp [VerifyIDToken, hraw]
  | other d => simp [VerifyIDToken, hraw]

/-! ## VerifyJWTAccessToken -/

/-- C3: for a JWT whose signature verifies against the key set and whose payload decodes,
and for every current time, `VerifyJWTAccessToken` succeeds exactly when `iat <= now`,
`exp >= now`, `nbf <= now`, `iss` is the configured `Issuer`, `aud` is the configured
`Audience`, and `cid` is empty or the configured `ClientID`; on success the returned
claims are the decoded payload. -/
theorem VerifyJWTAccessToken_succeeds_iff (w : World) (ia : IdentityProviderAdapter)
    (jwt : String) (payload : List UInt8) (accessClaims : AccessTokenClaims)
    (hsig : ia.jwksAccessTokenKeySet.VerifySignature jwt = .ok payload)
    (hdec : w.unmarshalAccessTokenClaims payload = .ok accessClaims) :
    ((VerifyJWTAccessToken w ia jwt).1.err = none ↔
      accessClaims.IssuedAt ≤ w.unixNow ∧ accessClaims.ExpiresAt ≥ w.unixNow ∧
        accessClaims.NotBefore ≤ w.unixNow ∧ accessClaims.Issuer = ia.Issuer ∧
        accessClaims.Audience = ia.Audience ∧
        (accessClaims.ClientID = "" ∨ accessClaims.ClientID = ia.ClientID)) ∧
    ((VerifyJWTAccessToken w ia jwt).1.err = none →
      (VerifyJWTAccessToken w ia jwt).1.claims = some accessClaims) := by
  rw [VerifyJWTAccessToken_of_decoded w ia jwt payload accessClaims hsig hdec]
  split_ifs with h1 h2 h3 h4 h5 h6
  · simp [h1]
  · simp [h2]
  · simp [h3]
  · simp [h4]
  · simp [h5]
  · simp [h6.1, h6.2]
  · refine ⟨⟨fun _ => ⟨not_lt.mp h1, not_lt.mp h2, not_lt.mp h3, not_not.mp h4,
      not_not.mp h5, ?_⟩, fun _ => rfl⟩, fun _ => rfl⟩
    by_cases hc : accessClaims.ClientID = ""
    · exact Or.inl hc
    · exact Or.inr (not_not.mp fun hne => h6 ⟨hc, hne⟩)

/-- Witness of C3: the valid access token of the example key set is accepted; its
audience is the adapter's `Audience`, which differs from the adapter's `ClientID`. -/
theorem VerifyJWTAccessToken_succeeds_iff_witness :
    (VerifyJWTAccessToken exampleWorld exampleAdapter "at1").1
      = ⟨some serviceClaims, none⟩ ∧
    exampleAdapter.Audience ≠ exampleAdapter.ClientID ∧
    ((VerifyJWTAccessToken exampleWorld exampleAdapter "at1").1.err = none →
      (VerifyJWTAccessToken exampleWorld exampleAdapter "at1").1.claims
        = some serviceClaims) :=
  ⟨by decide, by decide,
   (VerifyJWTAccessToken_succeeds_iff exampleWorld exampleAdapter "at1" [1] serviceClaims
      rfl rfl).2⟩

/-- C4: the six claim checks of `VerifyJWTAccessToken` report pairwise distinct reasons,
and for every decoded payload the reported reason is that of the first failing check in
the order issued-at, expiry, not-before, issuer, audience, client id. -/
theorem VerifyJWTAccessToken_first_failing_check (w : World)
    (ia : IdentityProviderAdapter) (jwt : String) (payload : List UInt8)
    (accessClaims : AccessTokenClaims)
    (hsig : ia.jwksAccessTokenKeySet.VerifySignature jwt = .ok payload)
    (hdec : w.unmarshalAccessTokenClaims payload = .ok accessClaims) :
    (accessClaims.IssuedAt > w.unixNow →
      (VerifyJWTAccessToken w ia jwt).1.err = some "invalid jwt iat") ∧
    (accessClaims.IssuedAt ≤ w.unixNow → accessClaims.ExpiresAt < w.unixNow →
      (VerifyJWTAccessToken w ia jwt).1.err = some "invalid jwt expired") ∧
    (accessClaims.IssuedAt ≤ w.unixNow → accessClaims.ExpiresAt ≥ w.unixNow →
      accessClaims.NotBefore > w.unixNow →
      (VerifyJWTAccessToken w ia jwt).1.err = some "invalid jwt nbf") ∧
    (accessClaims.IssuedAt ≤ w.unixNow → accessClaims.ExpiresAt ≥ w.unixNow →
      accessClaims.NotBefore ≤ w.unixNow → accessClaims.Issuer ≠ ia.Issuer →
      (VerifyJWTAccessToken w ia jwt).1.err = some "invalid jwt iss") ∧
    (accessClaims.IssuedAt ≤ w.unixNow → accessClaims.ExpiresAt ≥ w.unixNow →
      accessClaims.NotBefore ≤ w.unixNow → accessClaims.Issuer = ia.Issuer →
      accessClaims.Audience ≠ ia.Audience →
      (VerifyJWTAccessToken w ia jwt).1.err = some "invalid jwt aud") ∧
    (accessClaims.IssuedAt ≤ w.unixNow → accessClaims.ExpiresAt ≥ w.unixNow →
      accessClaims.NotBefore ≤ w.unixNow → accessClaims.Issuer = ia.Issuer →
      accessClaims.Audience = ia.Audience →
      accessClaims.ClientID ≠ "" ∧ accessClaims.ClientID ≠ ia.ClientID →
      (VerifyJWTAccessToken w ia jwt).1.err = some "invalid jwt cid") ∧
    ["invalid jwt iat", "invalid jwt expired", "invalid jwt nbf", "invalid jwt iss",
      "invalid jwt aud", "invalid jwt cid"].Nodup := by
  rw [VerifyJWTAccessToken_of_decoded w ia jwt payload accessClaims hsig hdec]
  refine ⟨fun h1 => ?_, fun h1 h2 => ?_, fun h1 h2 h3 => ?_, fun h1 h2 h3 h4 => ?_,
    fun h1 h2 h3 h4 h5 => ?_, fun h1 h2 h3 h4 h5 h6 => ?_, by decide⟩
  · simp [h1]
  · simp [not_lt.mpr h1, h2]
  · simp [not_lt.mpr h1, not_lt.mpr h2, h3]
  · simp [not_lt.mpr h1, not_lt.mpr h2, not_lt.mpr h3, h4]
  · simp [not_lt.mpr h1, not_lt.mpr h2, not_lt.mpr h3, h4, h5]
  · simp [not_lt.mpr h1, not_lt.mpr h2, not_lt.mpr h3, h4, h5, h6.1, h6.2]

/-- Witness of C4: a token failing every check reports the issued-at reason, and a token
failing only the client-id check reports the client-id reason. -/
theorem VerifyJWTAccessToken_first_failing_check_witness :
    (VerifyJWTAccessToken exampleWorld exampleAdapter "at4").1.err
      = some "invalid jwt iat" ∧
    (VerifyJWTAccessToken exampleWorld exampleAdapter "at3").1.err
      = some "invalid jwt cid" :=
  ⟨(VerifyJWTAccessToken_first_failing_check exampleWorld exampleAdapter "at4" [4]
      { serviceClaims with IssuedAt := 2000, ExpiresAt := 500, NotBefore := 2000
                           Issuer := "https://evil.example.com", Audience := "other"
                           ClientID := "zzz999" }
      rfl rfl).1 (by decide),
   (VerifyJWTAccessToken_first_failing_check exampleWorld exampleAdapter "at3" [3]
      { serviceClaims with ClientID := "zzz999" }
      rfl rfl).2.2.2.2.2.1 (by decide) (by decide) (by decide) (by decide) (by decide)
      (by decide)⟩

/-- C5: for a signed access token that passes the time, issuer and audience checks,
`VerifyJWTAccessToken` fails with the client-mismatch reason exactly when the `cid` claim
is non-empty and differs from the configured `ClientID`; with an empty (or absent, hence
zero-valued) `cid` claim the token is accepted. -/
theorem VerifyJWTAccessToken_client_id_rule (w : World) (ia : IdentityProviderAdapter)
    (jwt : String) (payload : List UInt8) (accessClaims : AccessTokenClaims)
    (hsig : ia.jwksAccessTokenKeySet.VerifySignature jwt = .ok payload)
    (hdec : w.unmarshalAccessTokenClaims payload = .ok accessClaims)
    (hiat : accessClaims.IssuedAt ≤ w.unixNow) (hexp : accessClaims.ExpiresAt ≥ w.unixNow)
    (hnbf : accessClaims.NotBefore ≤ w.unixNow) (hiss : accessClaims.Issuer = ia.Issuer)
    (haud : accessClaims.Audience = ia.Audience) :
    ((VerifyJWTAccessToken w ia jwt).1.err = some "invalid jwt cid" ↔
      accessClaims.ClientID ≠ "" ∧ accessClaims.ClientID ≠ ia.ClientID) ∧
    ((VerifyJWTAccessToken w ia jwt).1.err ≠ none ↔
      accessClaims.ClientID ≠ "" ∧ accessClaims.ClientID ≠ ia.ClientID) ∧
    (accessClaims.ClientID = "" →
      (VerifyJWTAccessToken w ia jwt).1 = ⟨some accessClaims, none⟩) := by
  rw [VerifyJWTAccessToken_of_decoded w ia jwt payload accessClaims hsig hdec]
  simp only [not_lt.mpr hiat, not_lt.mpr hexp, not_lt.mpr hnbf, hiss, haud, ne_eq,
    not_true_eq_false, if_false]
  split_ifs with h6
  · simp [h6.1, h6.2]
  · refine ⟨⟨False.elim, fun h => absurd h h6⟩,
      ⟨fun h => absurd rfl h, fun h => absurd h h6⟩, fun _ => rfl⟩

/-- Witness of C5: the example token without a `cid` claim is accepted. -/
theorem VerifyJWTAccessToken_client_id_rule_witness :
    (VerifyJWTAccessToken exampleWorld exampleAdapter "at1").1
      = ⟨some serviceClaims, none⟩ :=
  (VerifyJWTAccessToken_client_id_rule exampleWorld exampleAdapter "at1" [1] serviceClaims
    rfl rfl (by decide) (by decide) (by decide) (by decide) (by decide)).2.2 (by decide)

/-- C6: when the key set rejects the signature of a JWT, `VerifyJWTAccessToken` returns
an error and nil claims, for every decoder and every clock; the key-set call is the only
call it has made. -/
theorem VerifyJWTAccessToken_bad_signature (w : World) (ia : IdentityProviderAdapter)
    (jwt : String) (err : String)
    (hsig : ia.jwksAccessTokenKeySet.VerifySignature jwt = .error err) :
    VerifyJWTAccessToken w ia jwt =
      (⟨none, some ("verifying jwt signature: " ++ err)⟩, [Call.VerifySignature jwt]) := by
  unfold VerifyJWTAccessToken
  simp only [hsig]

/-- Witness of C6: a token that the example key set does not accept. -/
theorem VerifyJWTAccessToken_bad_signature_witness :
    VerifyJWTAccessToken exampleWorld exampleAdapter "forged" =
      (⟨none, some ("verifying jwt signature: " ++ "failed to verify id token signature")⟩,
        [Call.VerifySignature "forged"]) :=
  VerifyJWTAccessToken_bad_signature exampleWorld exampleAdapter "forged"
    "failed to verify id token signature" rfl

/-! ## initOAuth2 and AuthCodeURL -/

/-- C9: with a non-empty override, the configuration built by `initOAuth2` has the
override as its `RedirectURL`, for every flow value and whatever the default callbacks
are; `AuthCodeURL` hands exactly that configuration to the URL builder. -/
theorem initOAuth2_override (w : World) (ia : IdentityProviderAdapter)
    (overrideRedirectURI : String) (authFlow : AuthFlowType)
    (hne : overrideRedirectURI ≠ "") :
    (initOAuth2 w ia overrideRedirectURI authFlow).RedirectURL = overrideRedirectURI ∧
    ∀ nonce state : String,
      AuthCodeURL w ia nonce state overrideRedirectURI authFlow =
        w.oauth2AuthCodeURL { ia.oauth2Config with RedirectURL := overrideRedirectURI }
          state [("nonce", nonce)] := by
  have h : initOAuth2 w ia overrideRedirectURI authFlow =
      { ia.oauth2Config with RedirectURL := overrideRedirectURI } := by
    simp [initOAuth2, hne]
  exact ⟨by rw [h], fun nonce state => by simp only [AuthCodeURL, h]⟩

/-- Witness of C9: an override on the signup flow of the example adapter. -/
theorem initOAuth2_override_witness :
    (initOAuth2 exampleWorld exampleAdapter "https://other.example.com/cb"
      SignupAuthFlow).RedirectURL = "https://other.example.com/cb" :=
  (initOAuth2_override exampleWorld exampleAdapter "https://other.example.com/cb"
    SignupAuthFlow (by decide)).1

/-- C10: with an empty override, the redirect URI is the adapter's login callback for
`LoginAuthFlow` and its signup callback for `SignupAuthFlow`; in an adapter built by
`New` these are the parsed `loginCB` and `signupCB` arguments. -/
theorem initOAuth2_default_by_flow (w : World) (ia : IdentityProviderAdapter) :
    (initOAuth2 w ia "" LoginAuthFlow).RedirectURL
      = w.urlString ia.defaultLoginCallbackURL ∧
    (initOAuth2 w ia "" SignupAuthFlow).RedirectURL
      = w.urlString ia.defaultSignupCallbackURL ∧
    (∀ nonce state : String,
      AuthCodeURL w ia nonce state "" LoginAuthFlow =
        w.oauth2AuthCodeURL
          { ia.oauth2Config with RedirectURL := w.urlString ia.defaultLoginCallbackURL }
          state [("nonce", nonce)] ∧
      AuthCodeURL w ia nonce state "" SignupAuthFlow =
        w.oauth2AuthCodeURL
          { ia.oauth2Config with RedirectURL := w.urlString ia.defaultSignupCallbackURL }
          state [("nonce", nonce)]) ∧
    (∀ label id secret issuer audience loginCB signupCB logout : String,
      (New w label id secret issuer audience loginCB signupCB logout).adapter = some ia →
      w.urlParse loginCB = .ok ia.defaultLoginCallbackURL ∧
        w.urlParse signupCB = .ok ia.defaultSignupCallbackURL) := by
  refine ⟨by simp [initOAuth2], by simp [initOAuth2, LoginAuthFlow, SignupAuthFlow],
    fun nonce state => ⟨by simp [AuthCodeURL, initOAuth2],
      by simp [AuthCodeURL, initOAuth2, LoginAuthFlow, SignupAuthFlow]⟩, ?_⟩
  intro label id secret issuer audience loginCB signupCB logout hnew
  unfold New at hnew
  split at hnew
  · simp at hnew
  · split at hnew
    · simp at hnew
    · split at hnew
      · simp at hnew
      · split at hnew
        · simp at hnew
        · split at hnew
          · simp at hnew
          · simp only [Option.some.injEq] at hnew
            subst hnew
            exact ⟨by assumption, by assumption⟩

/-- Witness of C10: the example adapter is the one `New` builds, and its two default
redirects are the configured callbacks. -/
theorem initOAuth2_default_by_flow_witness :
    exampleWorld.urlParse "https://app.example.com/login/callback"
      = .ok exampleAdapter.defaultLoginCallbackURL ∧
    exampleWorld.urlParse "https://app.example.com/signup/callback"
      = .ok exampleAdapter.defaultSignupCallbackURL :=
  (initOAuth2_default_by_flow exampleWorld exampleAdapter).2.2.2 "example" "abc123" "s3cret"
    "https://idp.example.com" "api://default" "https://app.example.com/login/callback"
    "https://app.example.com/signup/callback" "/logout" rfl

/-- An adapter returned by `New` stores an OAuth2 configuration with an empty
`RedirectURL`, the given client id and secret and the three scopes. -/
theorem New_oauth2Config (w : World)
    (label id secret issuer audience loginCB signupCB logout : String)
    (ia : IdentityProviderAdapter)
    (hnew : (New w label id secret issuer audience loginCB signupCB logout).adapter
      = some ia) :
    ∃ oidcProv : Provider, w.NewProvider issuer = .ok oidcProv ∧
      ia.oauth2Config =
        { ClientID := id, ClientSecret := secret, Endpoint := oidcProv.Endpoint
          RedirectURL := "", Scopes := ["openid", "email", "profile"] } := by
  unfold New at hnew
  split at hnew
  · simp at hnew
  · split at hnew
    · simp at hnew
    · split at hnew
      · simp at hnew
      · split at hnew
        · simp at hnew
        · split at hnew
          · simp at hnew
          · simp only [Option.some.injEq] at hnew
            subst hnew
            exact ⟨_, by assumption, rfl⟩

/-- On a heap in which `base` refers to the adapter's stored configuration, the heap
form of `initOAuth2` appends one cell holding the value of `initOAuth2` and returns its
address. -/
theorem initOAuth2OnHeap_eq (w : World) (ia : IdentityProviderAdapter)
    (heap : List OAuth2Config) (base : Nat) (redirectURI : String)
    (authFlow : AuthFlowType) (hbase : heap[base]? = some ia.oauth2Config) :
    initOAuth2OnHeap w ia heap base redirectURI authFlow =
      some (heap ++ [initOAuth2 w ia redirectURI authFlow], heap.length) := by
  have hlt : base < heap.length := by
    rcases Nat.lt_or_ge base heap.length with h | h
    · exact h
    · rw [List.getElem?_eq_none h] at hbase
      cases hbase
  unfold initOAuth2OnHeap
  simp only [List.getElem?_append_left hlt, hbase]
  rw [List.getElem?_set_self (by simp)]
  simp [initOAuth2]

/-- C11: `initOAuth2` does not mutate the adapter.  Run on a heap in which the adapter's
pointer `base` refers to its stored configuration, it leaves that cell and every other
existing cell as they were, returns a fresh pointer, and the cell it returns holds the
stored configuration with only `RedirectURL` replaced; in an adapter built by `New` the
stored `RedirectURL` is empty. -/
theorem initOAuth2_does_not_mutate (w : World) (ia : IdentityProviderAdapter)
    (heap : List OAuth2Config) (base : Nat) (redirectURI : String)
    (authFlow : AuthFlowType) (hbase : heap[base]? = some ia.oauth2Config) :
    (∃ (heap1 : List OAuth2Config) (cp : Nat),
      initOAuth2OnHeap w ia heap base redirectURI authFlow = some (heap1, cp) ∧
      heap1[base]? = some ia.oauth2Config ∧
      (∀ p : Nat, p < heap.length → heap1[p]? = heap[p]?) ∧
      cp ≠ base ∧ heap.length ≤ cp ∧
      heap1[cp]? = some (initOAuth2 w ia redirectURI authFlow)) ∧
    (initOAuth2 w ia redirectURI authFlow).ClientID = ia.oauth2Config.ClientID ∧
    (initOAuth2 w ia redirectURI authFlow).ClientSecret = ia.oauth2Config.ClientSecret ∧
    (initOAuth2 w ia redirectURI authFlow).Endpoint = ia.oauth2Config.Endpoint ∧
    (initOAuth2 w ia redirectURI authFlow).Scopes = ia.oauth2Config.Scopes ∧
    (∀ label id secret issuer audience loginCB signupCB logout : String,
      (New w label id secret issuer audience loginCB signupCB logout).adapter = some ia →
      ia.oauth2Config.RedirectURL = "") := by
  have hlt : base < heap.length := by
    rcases Nat.lt_or_ge base heap.length with h | h
    · exact h
    · rw [List.getElem?_eq_none h] at hbase
      cases hbase
  have hrun := initOAuth2OnHeap_eq w ia heap base redirectURI authFlow hbase
  refine ⟨⟨heap ++ [initOAuth2 w ia redirectURI authFlow], heap.length, hrun, ?_, ?_,
    Nat.ne_of_gt hlt, Nat.le_refl _, ?_⟩, rfl, rfl, rfl, rfl, ?_⟩
  · rw [List.getElem?_append_left hlt, hbase]
  · intro p hp
    rw [List.getElem?_append_left hp]
  · rw [List.getElem?_append_right (Nat.le_refl _)]
    simp
  · intro label id secret issuer audience loginCB signupCB logout hnew
    obtain ⟨oidcProv, _, hcfg⟩ :=
      New_oauth2Config w label id secret issuer audience loginCB signupCB logout ia hnew
    rw [hcfg]

/-- Witness of C11: the example adapter on a heap whose only cell is its stored
configuration, with an override on the signup flow. -/
theorem initOAuth2_does_not_mutate_witness :
    ∃ (heap1 : List OAuth2Config) (cp : Nat),
      initOAuth2OnHeap exampleWorld exampleAdapter [exampleAdapter.oauth2Config] 0
        "https://other.example.com/cb" SignupAuthFlow = some (heap1, cp) ∧
      heap1[0]? = some exampleAdapter.oauth2Config ∧
      (∀ p : Nat, p < [exampleAdapter.oauth2Config].length →
        heap1[p]? = [exampleAdapter.oauth2Config][p]?) ∧
      cp ≠ 0 ∧ [exampleAdapter.oauth2Config].length ≤ cp ∧
      heap1[cp]? = some (initOAuth2 exampleWorld exampleAdapter
        "https://other.example.com/cb" SignupAuthFlow) :=
  (initOAuth2_does_not_mutate exampleWorld exampleAdapter [exampleAdapter.oauth2Config] 0
    "https://other.example.com/cb" SignupAuthFlow rfl).1

/-- C12: two calls of `AuthCodeURL` on the same adapter with the same flow and an empty
override hand the URL builder one and the same configuration (client id, endpoint,
redirect URI and scopes of the adapter); the two calls differ only in the `state`
argument and the `nonce` option, and with equal state and nonce the URLs are equal. -/
theorem AuthCodeURL_same_flow (w : World) (ia : IdentityProviderAdapter)
    (authFlow : AuthFlowType) (nonce1 state1 nonce2 state2 : String) :
    ∃ oauth2Client : OAuth2Config,
      AuthCodeURL w ia nonce1 state1 "" authFlow
        = w.oauth2AuthCodeURL oauth2Client state1 [("nonce", nonce1)] ∧
      AuthCodeURL w ia nonce2 state2 "" authFlow
        = w.oauth2AuthCodeURL oauth2Client state2 [("nonce", nonce2)] ∧
      oauth2Client.ClientID = ia.oauth2Config.ClientID ∧
      oauth2Client.Endpoint = ia.oauth2Config.Endpoint ∧
      oauth2Client.Scopes = ia.oauth2Config.Scopes ∧
      oauth2Client.RedirectURL = (initOAuth2 w ia "" authFlow).RedirectURL ∧
      (nonce1 = nonce2 → state1 = state2 →
        AuthCodeURL w ia nonce1 state1 "" authFlow
          = AuthCodeURL w ia nonce2 state2 "" authFlow) := by
  refine ⟨initOAuth2 w ia "" authFlow, rfl, rfl, rfl, rfl, rfl, rfl, ?_⟩
  intro hn hs
  rw [hn, hs]

/-- C13: for every override and flow, the configuration on which
`ExchangeCodeAndVerifyTokens` calls `Exchange` is the one on which `AuthCodeURL` builds
the URL, so both use the same redirect URI. -/
theorem ExchangeCode_same_redirect (w : World) (ia : IdentityProviderAdapter)
    (code nonce state overrideRedirectURI : String) (authFlow : AuthFlowType) :
    ∃ exchangeClient urlClient : OAuth2Config,
      (ExchangeCodeAndVerifyTokens w ia code overrideRedirectURI authFlow).2.head?
        = some (Call.Exchange exchangeClient code) ∧
      AuthCodeURL w ia nonce state overrideRedirectURI authFlow
        = w.oauth2AuthCodeURL urlClient state [("nonce", nonce)] ∧
      exchangeClient.RedirectURL = urlClient.RedirectURL ∧
      exchangeClient = urlClient := by
  refine ⟨initOAuth2 w ia overrideRedirectURI authFlow,
    initOAuth2 w ia overrideRedirectURI authFlow, ?_, rfl, rfl, rfl⟩
  unfold ExchangeCodeAndVerifyTokens
  cases h : w.oauth2Exchange (initOAuth2 w ia overrideRedirectURI authFlow) code <;>
    simp only [h, List.head?_cons]

/-- A successful `VerifyIDToken` returns the raw `id_token` field of the token, which the
verifier accepted, and the claims decoded from it. -/
theorem VerifyIDToken_ok_inv (w : World) (ia : IdentityProviderAdapter) (token : Token)
    (hok : (VerifyIDToken w ia token).1.err = none) :
    ∃ (rawIDToken : String) (idToken : IDToken) (idClaims : IDTokenClaims),
      token.Extra "id_token" = Value.string rawIDToken ∧
      ia.oidcProvider.Verify ia.oidcConfig rawIDToken = .ok idToken ∧
      w.idTokenClaims idToken = .ok idClaims ∧
      (VerifyIDToken w ia token).1 = ⟨some idClaims, rawIDToken, none⟩ := by
  cases hraw : token.Extra "id_token" with
  | string rawIDToken =>
    cases hsig : ia.oidcProvider.Verify ia.oidcConfig rawIDToken with
    | error err => simp [VerifyIDToken, hraw, hsig] at hok
    | ok idToken =>
      cases hdec : w.idTokenClaims idToken with
      | error err => simp [VerifyIDToken, hraw, hsig, hdec] at hok
      | ok idClaims =>
        refine ⟨rawIDToken, idToken, idClaims, rfl, hsig, hdec, ?_⟩
        rw [VerifyIDToken_of_decoded w ia token rawIDToken idToken idClaims hraw hsig hdec]
          at hok ⊢
        split_ifs at hok ⊢
        rfl
  | nil => simp [VerifyIDToken, hraw] at hok
  | int64 i => simp [VerifyIDToken, hraw] at hok
  | bool b => simp [VerifyIDToken, hraw] at hok
  | other d => simp [VerifyIDToken, hraw] at hok

/-- The method `getIdentity` when `VerifyIDToken` fails. -/
theorem getIdentity_of_err (w : World) (ia : IdentityProviderAdapter) (token : Token)
    (err : String) (herr : (VerifyIDToken w ia token).1.err = some err) :
    getIdentity w ia token =
      (Outcome.returned ⟨none, some ("verifying id token: " ++ err)⟩,
        (VerifyIDToken w ia token).2) := by
  unfold getIdentity
  split
  · next e calls heq =>
    rw [heq] at herr ⊢
    simp only [Option.some.injEq] at herr
    rw [herr]
  · next calls heq => rw [heq] at herr; cases herr
  · next c raw calls heq => rw [heq] at herr; cases herr

/-- C14: for a token set whose ID token verifies, `getIdentity` returns no error and an
Identity whose `UserID`, `Name`, `Email` and `Issuer` are the `sub`, `name`, `email` and
`iss` claims decoded from the raw ID token, whose `IDToken` is that raw token, whose
`AccessToken` is the token set's access token, whose `AccessTokenIssuedAt` is
`time.Unix(iat, 0)` in UTC and whose `AccessTokenExpiresAt` is the token set's expiry in
UTC. -/
theorem getIdentity_projection (w : World) (ia : IdentityProviderAdapter) (token : Token)
    (hok : (VerifyIDToken w ia token).1.err = none) :
    ∃ (rawIDToken : String) (idToken : IDToken) (idClaims : IDTokenClaims),
      token.Extra "id_token" = Value.string rawIDToken ∧
      ia.oidcProvider.Verify ia.oidcConfig rawIDToken = .ok idToken ∧
      w.idTokenClaims idToken = .ok idClaims ∧
      (getIdentity w ia token).1 =
        Outcome.returned
          ⟨some
            { UserID := idClaims.Subject
              Name := idClaims.Name
              Email := idClaims.Email
              Issuer := idClaims.Issuer
              IDToken := rawIDToken
              AccessToken := token.AccessToken
              AccessTokenIssuedAt := w.timeUTC (w.timeUnix idClaims.IssuedAt 0)
              AccessTokenExpiresAt := w.timeUTC token.Expiry }, none⟩ := by
  obtain ⟨rawIDToken, idToken, idClaims, hraw, hsig, hdec, hres⟩ :=
    VerifyIDToken_ok_inv w ia token hok
  refine ⟨rawIDToken, idToken, idClaims, hraw, hsig, hdec, ?_⟩
  unfold getIdentity
  split
  · next e calls heq => rw [heq] at hres; cases hres
  · next calls heq => rw [heq] at hres; cases hres
  · next c raw calls heq =>
    rw [heq] at hres
    simp only [IDTokenReturn.mk.injEq, Option.some.injEq, and_true] at hres
    rw [hres.1, hres.2]

/-- Witness of C14: the valid ID token of the example provider in a token set expiring
at 4600; the Identity is Alice with both times presented in UTC. -/
theorem getIdentity_projection_witness :
    (getIdentity exampleWorld exampleAdapter
        (exchangedToken "jwt1")).1 =
      Outcome.returned
        ⟨some
          { UserID := "u1", Name := "Alice", Email := "a@example.com"
            Issuer := "https://idp.example.com", IDToken := "jwt1"
            AccessToken := "opaque-access-token"
            AccessTokenIssuedAt := { sec := 995, nsec := 0, loc := "UTC" }
            AccessTokenExpiresAt := { sec := 4600, nsec := 0, loc := "UTC" } }, none⟩ ∧
    ∃ (rawIDToken : String) (idToken : IDToken) (idClaims : IDTokenClaims),
      Token.Extra (exchangedToken "jwt1") "id_token" = Value.string rawIDToken ∧
      exampleAdapter.oidcProvider.Verify exampleAdapter.oidcConfig rawIDToken
        = .ok idToken ∧
      exampleWorld.idTokenClaims idToken = .ok idClaims ∧
      (getIdentity exampleWorld exampleAdapter
          (exchangedToken "jwt1")).1 =
        Outcome.returned
          ⟨some
            { UserID := idClaims.Subject
              Name := idClaims.Name
              Email := idClaims.Email
              Issuer := idClaims.Issuer
              IDToken := rawIDToken
              AccessToken := "opaque-access-token"
              AccessTokenIssuedAt :=
                exampleWorld.timeUTC (exampleWorld.timeUnix idClaims.IssuedAt 0)
              AccessTokenExpiresAt :=
                exampleWorld.timeUTC (exchangedToken "jwt1").Expiry }, none⟩ :=
  ⟨by decide,
   getIdentity_projection exampleWorld exampleAdapter
    (exchangedToken "jwt1") (by decide)⟩

/-- C15: an Identity is produced only from verified claims.  When `VerifyIDToken` fails,
`getIdentity` returns the wrapped error and a nil Identity, and so do both exchanges for
the token set they obtained; `getIdentity` returns an Identity only if `VerifyIDToken`
succeeded; and when the token exchange itself fails, the wrapped exchange error and a nil
Identity are returned with the exchange as the only call made. -/
theorem no_identity_without_verification (w : World) (ia : IdentityProviderAdapter) :
    (∀ (token : Token) (err : String), (VerifyIDToken w ia token).1.err = some err →
      (getIdentity w ia token).1
        = Outcome.returned ⟨none, some ("verifying id token: " ++ err)⟩) ∧
    (∀ (token : Token) (i : Identity) (e : Option String),
      (getIdentity w ia token).1 = Outcome.returned ⟨some i, e⟩ →
      (VerifyIDToken w ia token).1.err = none) ∧
    (∀ (code overrideRedirectURI : String) (authFlow : AuthFlowType) (token : Token)
        (err : String),
      w.oauth2Exchange (initOAuth2 w ia overrideRedirectURI authFlow) code = .ok token →
      (VerifyIDToken w ia token).1.err = some err →
      (ExchangeCodeAndVerifyTokens w ia code overrideRedirectURI authFlow).1
        = Outcome.returned ⟨none, some ("verifying id token: " ++ err)⟩) ∧
    (∀ (username password : String) (token : Token) (err : String),
      w.oauth2PasswordCredentialsToken (initOAuth2 w ia "" LoginAuthFlow) username password
        = .ok token →
      (VerifyIDToken w ia token).1.err = some err →
      (ExchangeUsernameAndPasswordAndVerifyTokens w ia username password).1
        = Outcome.returned ⟨none, some ("verifying id token: " ++ err)⟩) ∧
    (∀ (code overrideRedirectURI : String) (authFlow : AuthFlowType) (err : String),
      w.oauth2Exchange (initOAuth2 w ia overrideRedirectURI authFlow) code = .error err →
      ExchangeCodeAndVerifyTokens w ia code overrideRedirectURI authFlow =
        (Outcome.returned ⟨none, some ("exchanging code for token: " ++ err)⟩,
          [Call.Exchange (initOAuth2 w ia overrideRedirectURI authFlow) code])) ∧
    (∀ (username password err : String),
      w.oauth2PasswordCredentialsToken (initOAuth2 w ia "" LoginAuthFlow) username password
        = .error err →
      ExchangeUsernameAndPasswordAndVerifyTokens w ia username password =
        (Outcome.returned ⟨none, some ("exchanging u:p for token: " ++ err)⟩,
          [Call.PasswordCredentialsToken (initOAuth2 w ia "" LoginAuthFlow) username
            password])) := by
  refine ⟨?_, ?_, ?_, ?_, ?_, ?_⟩
  · intro token err herr
    rw [getIdentity_of_err w ia token err herr]
  · intro token i e hid
    cases herr : (VerifyIDToken w ia token).1.err with
    | none => rfl
    | some err =>
      rw [getIdentity_of_err w ia token err herr] at hid
      simp at hid
  · intro code overrideRedirectURI authFlow token err hex herr
    unfold ExchangeCodeAndVerifyTokens
    simp only [hex]
    rw [getIdentity_of_err w ia token err herr]
  · intro username password token err hex herr
    unfold ExchangeUsernameAndPasswordAndVerifyTokens
    simp only [hex]
    rw [getIdentity_of_err w ia token err herr]
  · intro code overrideRedirectURI authFlow err hex
    unfold ExchangeCodeAndVerifyTokens
    simp only [hex]
  · intro username password err hex
    unfold ExchangeUsernameAndPasswordAndVerifyTokens
    simp only [hex]

/-- Witness of C15: the example token endpoint answers `code2` with an expired ID token,
which the verifier rejects, and refuses the code `bad`. -/
theorem no_identity_without_verification_witness :
    (ExchangeCodeAndVerifyTokens exampleWorld exampleAdapter "code2" "" LoginAuthFlow).1
      = Outcome.returned
          ⟨none, some ("verifying id token: " ++ ("verifying jwt signature: "
            ++ "oidc: token is expired (Token Expiry: 1970-01-01 00:16:39 +0000 UTC)"))⟩ ∧
    ExchangeCodeAndVerifyTokens exampleWorld exampleAdapter "bad" "" LoginAuthFlow =
      (Outcome.returned
        ⟨none, some ("exchanging code for token: "
          ++ "oauth2: cannot fetch token: 400 Bad Request")⟩,
        [Call.Exchange (initOAuth2 exampleWorld exampleAdapter "" LoginAuthFlow) "bad"]) :=
  ⟨(no_identity_without_verification exampleWorld exampleAdapter).2.2.1 "code2" ""
      LoginAuthFlow (exchangedToken "jwt2")
      ("verifying jwt signature: "
        ++ "oidc: token is expired (Token Expiry: 1970-01-01 00:16:39 +0000 UTC)")
      rfl (by decide),
   (no_identity_without_verification exampleWorld exampleAdapter).2.2.2.2.1 "bad" ""
      LoginAuthFlow "oauth2: cannot fetch token: 400 Bad Request" rfl⟩

/-! ## LogoutLink -/

/-- Trimming the cutset `/` on the left ignores one more leading slash. -/
theorem TrimLeft_slash_append (p : String) : TrimLeft ("/" ++ p) "/" = TrimLeft p "/" := by
  unfold TrimLeft
  have h : ("/" ++ p).data = '/' :: p.data := by simp [String.data_append]
  rw [h, List.dropWhile_cons_of_pos (by decide)]

/-- C16: `LogoutLink` is insensitive to a leading slash in the configured logout path: two
adapters with the same issuer URL whose logout paths are `p` and `"/" ++ p` return the
same link for every parameter set. -/
theorem LogoutLink_leading_slash (w : World) (ia ia2 : IdentityProviderAdapter)
    (params : Values) (hurl : ia2.issuerURL = ia.issuerURL)
    (hpath : ia2.issuerLogoutPath = "/" ++ ia.issuerLogoutPath) :
    LogoutLink w ia2 params = LogoutLink w ia params := by
  unfold LogoutLink logoutURL
  rw [hurl, hpath, TrimLeft_slash_append]

/-- Witness of C16: the logout paths `/logout` and `logout` on the example adapter. -/
theorem LogoutLink_leading_slash_witness :
    LogoutLink exampleWorld exampleAdapter [("client_id", ["abc123"])] =
      LogoutLink exampleWorld { exampleAdapter with issuerLogoutPath := "logout" }
        [("client_id", ["abc123"])] :=
  LogoutLink_leading_slash exampleWorld { exampleAdapter with issuerLogoutPath := "logout" }
    exampleAdapter [("client_id", ["abc123"])] rfl (by decide)

/-- C17 (failing input): with an issuer URL whose path is `/` and the logout path
`/v2/logout`, the URL that `LogoutLink` renders has the path `//v2/logout`, two slashes
between the issuer and the logout path, for every parameter set. -/
theorem LogoutLink_trailing_slash_issuer (w : World) (params : Values) :
    logoutURL w trailingSlashAdapter params =
      { Scheme := "https", Host := "tenant.auth0.com", Path := "//v2/logout"
        RawQuery := w.valuesEncode params } ∧
    LogoutLink w trailingSlashAdapter params =
      w.urlString
        { Scheme := "https", Host := "tenant.auth0.com", Path := "//v2/logout"
          RawQuery := w.valuesEncode params } := by
  have hpath : "/" ++ ("/" ++ TrimLeft "/v2/logout" "/") = "//v2/logout" := by decide
  have h : logoutURL w trailingSlashAdapter params =
      { Scheme := "https", Host := "tenant.auth0.com", Path := "//v2/logout"
        RawQuery := w.valuesEncode params } := by
    simp only [logoutURL, trailingSlashAdapter, hpath]
  exact ⟨h, by rw [LogoutLink, h]⟩

/-! ## New -/

/-- The paths through `New`: each failure returns no adapter and its own wrapped error,
and the only success returns the adapter assembled from the arguments, the discovered
provider, the key set and the three parsed URLs. -/
theorem New_cases (w : World)
    (label id secret issuer audience loginCB signupCB logout : String) :
    (∃ e, w.NewProvider issuer = .error e ∧
      New w label id secret issuer audience loginCB signupCB logout
        = ⟨none, some ("oidc provider: " ++ e)⟩) ∨
    (∃ oidcProv e, w.NewProvider issuer = .ok oidcProv ∧
      newRemoteKeySet w oidcProv = .error e ∧
      New w label id secret issuer audience loginCB signupCB logout
        = ⟨none, some ("jwks keyset: " ++ e)⟩) ∨
    (∃ e, w.urlParse loginCB = .error e ∧
      New w label id secret issuer audience loginCB signupCB logout
        = ⟨none, some ("login callback expected to be valid url: " ++ e)⟩) ∨
    (∃ e, w.urlParse signupCB = .error e ∧
      New w label id secret issuer audience loginCB signupCB logout
        = ⟨none, some ("signup callback expected to be valid url: " ++ e)⟩) ∨
    (∃ e, w.urlParse issuer = .error e ∧
      New w label id secret issuer audience loginCB signupCB logout
        = ⟨none, some ("issuer expected to be valid url: " ++ e)⟩) ∨
    (∃ oidcProv keyset loginCBURL signupCBURL issuerURL,
      w.NewProvider issuer = .ok oidcProv ∧ newRemoteKeySet w oidcProv = .ok keyset ∧
      w.urlParse loginCB = .ok loginCBURL ∧ w.urlParse signupCB = .ok signupCBURL ∧
      w.urlParse issuer = .ok issuerURL ∧
      New w label id secret issuer audience loginCB signupCB logout =
        ⟨some
          { label := label
            ClientID := id
            clientSecret := secret
            Issuer := issuer
            Audience := audience
            issuerURL := issuerURL
            defaultLoginCallbackURL := loginCBURL
            defaultSignupCallbackURL := signupCBURL
            issuerLogoutPath := logout
            oidcProvider := oidcProv
            oidcConfig := { ClientID := id, SupportedSigningAlgs := ["RS256"] }
            jwksAccessTokenKeySet := keyset
            oauth2Config :=
              { ClientID := id
                ClientSecret := secret
                Endpoint := oidcProv.Endpoint
                RedirectURL := ""
                Scopes := ["openid", "email", "profile"] } }, none⟩) := by
  unfold New
  cases hp : w.NewProvider issuer with
  | error e => exact Or.inl ⟨e, rfl, rfl⟩
  | ok oidcProv =>
    cases hk : newRemoteKeySet w oidcProv with
    | error e => exact Or.inr (Or.inl ⟨oidcProv, e, rfl, hk, by simp only [hk]⟩)
    | ok keyset =>
      cases hl : w.urlParse loginCB with
      | error e => exact Or.inr (Or.inr (Or.inl ⟨e, rfl, by simp only [hk, hl]⟩))
      | ok loginCBURL =>
        cases hs : w.urlParse signupCB with
        | error e =>
          exact Or.inr (Or.inr (Or.inr (Or.inl ⟨e, rfl, by simp only [hk, hl, hs]⟩)))
        | ok signupCBURL =>
          cases hi : w.urlParse issuer with
          | error e =>
            exact Or.inr (Or.inr (Or.inr (Or.inr (Or.inl
              ⟨e, rfl, by simp only [hk, hl, hs, hi]⟩))))
          | ok issuerURL =>
            exact Or.inr (Or.inr (Or.inr (Or.inr (Or.inr
              ⟨oidcProv, keyset, loginCBURL, signupCBURL, issuerURL, rfl, hk, rfl, rfl,
                rfl, by simp only [hk, hl, hs, hi]⟩))))

/-- C18: when the login callback, the signup callback or the issuer does not parse as a
URL, `New` returns an error and no adapter. -/
theorem New_fails_on_malformed_url (w : World)
    (label id secret issuer audience loginCB signupCB logout : String)
    (hbad : (∃ e, w.urlParse loginCB = .error e) ∨ (∃ e, w.urlParse signupCB = .error e) ∨
      (∃ e, w.urlParse issuer = .error e)) :
    (New w label id secret issuer audience loginCB signupCB logout).adapter = none ∧
    ∃ err, (New w label id secret issuer audience loginCB signupCB logout).err
      = some err := by
  rcases New_cases w label id secret issuer audience loginCB signupCB logout with
    ⟨e, _, h⟩ | ⟨p, e, _, _, h⟩ | ⟨e, _, h⟩ | ⟨e, _, h⟩ | ⟨e, _, h⟩ |
    ⟨p, k, l, s, i, _, _, hl, hs, hi, _⟩
  · rw [h]; exact ⟨rfl, _, rfl⟩
  · rw [h]; exact ⟨rfl, _, rfl⟩
  · rw [h]; exact ⟨rfl, _, rfl⟩
  · rw [h]; exact ⟨rfl, _, rfl⟩
  · rw [h]; exact ⟨rfl, _, rfl⟩
  · rcases hbad with ⟨e, he⟩ | ⟨e, he⟩ | ⟨e, he⟩
    · rw [hl] at he; cases he
    · rw [hs] at he; cases he
    · rw [hi] at he; cases he

/-- Witness of C18: the example world rejects the signup callback `:`. -/
theorem New_fails_on_malformed_url_witness :
    (New exampleWorld "example" "abc123" "s3cret" "https://idp.example.com"
      "api://default" "https://app.example.com/login/callback" ":" "/logout").adapter
      = none ∧
    ∃ err, (New exampleWorld "example" "abc123" "s3cret" "https://idp.example.com"
      "api://default" "https://app.example.com/login/callback" ":" "/logout").err
      = some err :=
  New_fails_on_malformed_url exampleWorld "example" "abc123" "s3cret"
    "https://idp.example.com" "api://default" "https://app.example.com/login/callback" ":"
    "/logout" (Or.inr (Or.inl ⟨"missing protocol scheme", rfl⟩))

/-- C19: `New` returns no partial adapter.  With a non-nil error the adapter is nil (and
with a nil adapter the error is non-nil); with a nil error the adapter is non-nil and
carries the given client id, issuer and audience, the provider that discovery returned
for the issuer and the key set built from that provider. -/
theorem New_no_partial_adapter (w : World)
    (label id secret issuer audience loginCB signupCB logout : String) :
    ((New w label id secret issuer audience loginCB signupCB logout).err ≠ none →
      (New w label id secret issuer audience loginCB signupCB logout).adapter = none) ∧
    ((New w label id secret issuer audience loginCB signupCB logout).adapter = none →
      (New w label id secret issuer audience loginCB signupCB logout).err ≠ none) ∧
    ((New w label id secret issuer audience loginCB signupCB logout).err = none →
      ∃ (ia : IdentityProviderAdapter) (oidcProv : Provider) (keyset : KeySet),
        (New w label id secret issuer audience loginCB signupCB logout).adapter = some ia ∧
        w.NewProvider issuer = .ok oidcProv ∧ newRemoteKeySet w oidcProv = .ok keyset ∧
        ia.ClientID = id ∧ ia.Issuer = issuer ∧ ia.Audience = audience ∧
        ia.oidcProvider = oidcProv ∧ ia.jwksAccessTokenKeySet = keyset) := by
  rcases New_cases w label id secret issuer audience loginCB signupCB logout with
    ⟨e, _, h⟩ | ⟨p, e, _, _, h⟩ | ⟨e, _, h⟩ | ⟨e, _, h⟩ | ⟨e, _, h⟩ |
    ⟨p, k, l, s, i, hp, hk, _, _, _, h⟩
  · rw [h]; simp
  · rw [h]; simp
  · rw [h]; simp
  · rw [h]; simp
  · rw [h]; simp
  · rw [h]
    refine ⟨?_, ?_, ?_⟩
    · intro hne
      exact absurd rfl hne
    · intro hnone
      cases hnone
    · intro _
      exact ⟨_, p, k, rfl, hp, hk, rfl, rfl, rfl, rfl, rfl⟩

/-- Witness of C19: `New` on the example world returns the example adapter's client id,
issuer and audience, the example provider and the example key set. -/
theorem New_no_partial_adapter_witness :
    ∃ (ia : IdentityProviderAdapter) (oidcProv : Provider) (keyset : KeySet),
      (New exampleWorld "example" "abc123" "s3cret" "https://idp.example.com"
        "api://default" "https://app.example.com/login/callback"
        "https://app.example.com/signup/callback" "/logout").adapter = some ia ∧
      exampleWorld.NewProvider "https://idp.example.com" = .ok oidcProv ∧
      newRemoteKeySet exampleWorld oidcProv = .ok keyset ∧
      ia.ClientID = "abc123" ∧ ia.Issuer = "https://idp.example.com" ∧
      ia.Audience = "api://default" ∧
      ia.oidcProvider = oidcProv ∧ ia.jwksAccessTokenKeySet = keyset :=
  (New_no_partial_adapter exampleWorld "example" "abc123" "s3cret"
    "https://idp.example.com" "api://default" "https://app.example.com/login/callback"
    "https://app.example.com/signup/callback" "/logout").2.2 rfl

/-- C20 (counterexample): for a provider whose metadata has an empty `jwks_uri`,
`newRemoteKeySet` returns a key set over the empty URL and no error, and `New` returns
an adapter and a nil error. -/
theorem newRemoteKeySet_empty_jwks_uri :
    emptyJWKSProvider.Claims = .ok "" ∧
    newRemoteKeySet emptyJWKSWorld emptyJWKSProvider
      = .ok (emptyJWKSWorld.NewRemoteKeySet "") ∧
    (New emptyJWKSWorld "example" "abc123" "s3cret" "https://idp.example.com"
      "api://default" "https://app.example.com/login/callback"
      "https://app.example.com/signup/callback" "/logout").err = none ∧
    (New emptyJWKSWorld "example" "abc123" "s3cret" "https://idp.example.com"
      "api://default" "https://app.example.com/login/callback"
      "https://app.example.com/signup/callback" "/logout").adapter.isSome = true :=
  ⟨rfl, rfl, rfl, rfl⟩

/-- C20 (amended): `newRemoteKeySet` does not inspect the `jwks_uri` that the provider
metadata decodes to.  Whatever that string is, the empty one of a document without the
field included, it returns the key set over that URL and no error, and `New`, when its
three URLs parse, returns a nil error and an adapter holding that key set. -/
theorem newRemoteKeySet_of_decoded (w : World) (provider : Provider) (JWKSURL : String)
    (hdec : provider.Claims = .ok JWKSURL) :
    newRemoteKeySet w provider = .ok (w.NewRemoteKeySet JWKSURL) ∧
    (∀ (label id secret issuer audience loginCB signupCB logout : String) (l s i : URL),
      w.NewProvider issuer = .ok provider → w.urlParse loginCB = .ok l →
      w.urlParse signupCB = .ok s → w.urlParse issuer = .ok i →
      (New w label id secret issuer audience loginCB signupCB logout).err = none ∧
      ∃ ia : IdentityProviderAdapter,
        (New w label id secret issuer audience loginCB signupCB logout).adapter = some ia ∧
        ia.jwksAccessTokenKeySet = w.NewRemoteKeySet JWKSURL) := by
  have hk : newRemoteKeySet w provider = .ok (w.NewRemoteKeySet JWKSURL) := by
    unfold newRemoteKeySet
    rw [hdec]
  refine ⟨hk, ?_⟩
  intro label id secret issuer audience loginCB signupCB logout l s i hp hl hs hi
  unfold New
  simp only [hp, hk, hl, hs, hi]
  exact ⟨trivial, _, rfl, rfl⟩

/-- Witness of C20 (amended): the metadata of the provider without a `jwks_uri` decodes to
the empty string, and `New` returns an adapter whose key set is the one over the empty
URL. -/
theorem newRemoteKeySet_of_decoded_witness :
    emptyJWKSProvider.Claims = .ok "" ∧
    ∃ ia : IdentityProviderAdapter,
      (New emptyJWKSWorld "example" "abc123" "s3cret" "https://idp.example.com"
        "api://default" "https://app.example.com/login/callback"
        "https://app.example.com/signup/callback" "/logout").adapter = some ia ∧
      ia.jwksAccessTokenKeySet = emptyJWKSWorld.NewRemoteKeySet "" :=
  ⟨rfl,
   ((newRemoteKeySet_of_decoded emptyJWKSWorld emptyJWKSProvider "" rfl).2 "example"
      "abc123" "s3cret" "https://idp.example.com" "api://default"
      "https://app.example.com/login/callback" "https://app.example.com/signup/callback"
      "/logout" { Path := "https://app.example.com/login/callback" }
      { Path := "https://app.example.com/signup/callback" }
      { Path := "https://idp.example.com" } rfl rfl rfl rfl).2⟩

end idpadapter

namespace utils

open models

/-! ## Response helpers -/

/-- Writing a response with a set status code and no description on a writer that has
not written its header: the status is the code and the body is the marshalled
response, described by `http.StatusText`. -/
theorem writeResponse_ok (lib : Lib) (w : ResponseWriter) (data : APIResponse)
    (j : List UInt8) (hfresh : w.wroteHeader = false) (hcode : data.StatusCode ≠ 0)
    (hdesc : data.Description = "")
    (hj : lib.jsonMarshal { data with Description := lib.StatusText data.StatusCode }
      = .ok j) :
    writeResponse lib w data =
      { Header :=
          (((w.Header.filter fun kv => kv.1 ≠ "Content-Type")
            ++ [("Content-Type", "application/json")]).filter
              fun kv => kv.1 ≠ "Content-Length") ++ [("Content-Length", Itoa j.length)]
        wroteHeader := true
        Code := data.StatusCode
        Body := w.Body ++ j } := by
  simp [writeResponse, hcode, hdesc, hj, writeRawResponse, ResponseWriter.SetHeader,
    ResponseWriter.WriteHeader, ResponseWriter.Write, hfresh]

end utils

namespace device

open models utils

/-- C21: on a writer that has not written its header, `GetDeviceHandler` answers the
device ids `A`, `B`, `C` and `D` with status 200 and the marshalled response whose data
is `Plumbing`, `Gardening`, `Lighting` and `FrontDesk`, and every other id with status
404 and the marshalled response with the single error `Unknown Device Specified` and no
data. -/
theorem GetDeviceHandler_zones (lib : Lib) (w : ResponseWriter) (r : Request)
    (hfresh : w.wroteHeader = false) :
    (∀ (zone : String) (j : List UInt8),
      (r.URLParam "deviceID" = "A" ∧ zone = "Plumbing") ∨
        (r.URLParam "deviceID" = "B" ∧ zone = "Gardening") ∨
        (r.URLParam "deviceID" = "C" ∧ zone = "Lighting") ∨
        (r.URLParam "deviceID" = "D" ∧ zone = "FrontDesk") →
      lib.jsonMarshal
        { StatusCode := 200, Description := lib.StatusText 200, Data := Data.string zone }
        = .ok j →
      (GetDeviceHandler lib w r).Code = 200 ∧
        (GetDeviceHandler lib w r).Body = w.Body ++ j) ∧
    (∀ j : List UInt8,
      r.URLParam "deviceID" ≠ "A" → r.URLParam "deviceID" ≠ "B" →
      r.URLParam "deviceID" ≠ "C" → r.URLParam "deviceID" ≠ "D" →
      lib.jsonMarshal
        { StatusCode := 404, Description := lib.StatusText 404, Data := Data.nil
          Errors := [{ Error := "Unknown Device Specified" }] } = .ok j →
      (GetDeviceHandler lib w r).Code = 404 ∧
        (GetDeviceHandler lib w r).Body = w.Body ++ j) := by
  constructor
  · intro zone j hcase hj
    have hw : GetDeviceHandler lib w r = OKResponse lib w (Data.string zone) := by
      rcases hcase with ⟨h, hz⟩ | ⟨h, hz⟩ | ⟨h, hz⟩ | ⟨h, hz⟩ <;>
        simp [GetDeviceHandler, h, hz]
    have h := writeResponse_ok lib w { StatusCode := 200, Data := Data.string zone } j
      hfresh (by simp) rfl hj
    rw [hw, OKResponse, h]
    exact ⟨rfl, rfl⟩
  · intro j hA hB hC hD hj
    have hw : GetDeviceHandler lib w r
        = NotFoundResponse lib w ["Unknown Device Specified"] := by
      simp [GetDeviceHandler, hA, hB, hC, hD]
    have h := writeResponse_ok lib w
      { StatusCode := 404, Errors := [{ Error := "Unknown Device Specified" }] } j hfresh
      (by simp) rfl hj
    rw [hw]
    simp only [NotFoundResponse, List.map]
    rw [h]
    exact ⟨rfl, rfl⟩

/-- Witness of C21: the request for device `A` on a new writer, with the example
library. -/
theorem GetDeviceHandler_zones_witness :
    (GetDeviceHandler exampleLib {} deviceRequestA).Code = 200 ∧
    (GetDeviceHandler exampleLib {} deviceRequestA).Body = [] ++ [200] :=
  (GetDeviceHandler_zones exampleLib {} deviceRequestA rfl).1 "Plumbing" [200]
    (Or.inl ⟨rfl, rfl⟩) rfl

end device

namespace middleware

open models utils

/-- C22: `SharedKeyMiddleware` invokes the next handler exactly when the request's
`X-API-ACCESS-KEY` header equals the shared access key, and then returns what the next
handler wrote; otherwise it invokes nothing and writes the 401 response, which on a
writer that has not written its header has status 401, content type
`application/json` and the marshalled response as its body. -/
theorem SharedKeyMiddleware_authenticates (lib : Lib) (next : Handler)
    (w : ResponseWriter) (r : Request) :
    ((SharedKeyMiddleware lib next w r).2 ≠ [] ↔
      r.Get "X-API-ACCESS-KEY" = sharedAccessKeySecret) ∧
    (r.Get "X-API-ACCESS-KEY" = sharedAccessKeySecret →
      SharedKeyMiddleware lib next w r = ((next w r).1, r.RequestURI :: (next w r).2)) ∧
    (r.Get "X-API-ACCESS-KEY" ≠ sharedAccessKeySecret →
      SharedKeyMiddleware lib next w r = (UnauthorizedResponse lib w [], []) ∧
      ∀ j : List UInt8, w.wroteHeader = false →
        lib.jsonMarshal { StatusCode := 401, Description := lib.StatusText 401 } = .ok j →
        (SharedKeyMiddleware lib next w r).1.Code = 401 ∧
        (SharedKeyMiddleware lib next w r).1.Body = w.Body ++ j ∧
        ("Content-Type", "application/json") ∈ (SharedKeyMiddleware lib next w r).1.Header) := by
  by_cases hkey : r.Get "X-API-ACCESS-KEY" = sharedAccessKeySecret
  · have hrun : SharedKeyMiddleware lib next w r
        = ((next w r).1, r.RequestURI :: (next w r).2) := by
      simp [SharedKeyMiddleware, SharedAccessKeyHeader, hkey]
    refine ⟨?_, fun _ => hrun, fun hne => absurd hkey hne⟩
    rw [hrun]
    simp [hkey]
  · have hrun : SharedKeyMiddleware lib next w r = (UnauthorizedResponse lib w [], []) := by
      simp [SharedKeyMiddleware, SharedAccessKeyHeader, hkey]
    refine ⟨?_, fun h => absurd h hkey, fun _ => ⟨hrun, ?_⟩⟩
    · rw [hrun]
      simp [hkey]
    · intro j hfresh hj
      have h := writeResponse_ok lib w { StatusCode := 401 } j hfresh (by simp) rfl hj
      rw [hrun]
      simp only [UnauthorizedResponse, List.map]
      rw [h]
      refine ⟨rfl, rfl, ?_⟩
      simp

/-- C23 (failing input): `OAuthMiddleware` passes every request on to the next handler;
the request `GET /v1/device/A` without an `Authorization` header reaches the device
handler, which answers it with status 200. -/
theorem OAuthMiddleware_passes_every_request :
    (∀ (next : Handler) (w : ResponseWriter) (r : Request),
      OAuthMiddleware next w r = ((next w r).1, r.RequestURI :: (next w r).2)) ∧
    deviceRequestA.Get "Authorization" = "" ∧
    (∀ (lib : Lib) (w : ResponseWriter),
      OAuthMiddleware (leaf (device.GetDeviceHandler lib)) w deviceRequestA =
        (device.GetDeviceHandler lib w deviceRequestA, ["/v1/device/A"])) ∧
    (OAuthMiddleware (leaf (device.GetDeviceHandler exampleLib)) {} deviceRequestA).1.Code
      = 200 :=
  ⟨fun _ _ _ => rfl, rfl, fun _ _ => rfl, by decide⟩

end middleware

namespace pet

open models utils

/-- C27 (failing input): `PostPetByID` decodes the body into its receiver.  When the
decode leaves the receiver in place it hands `db.Save` the zero pet and answers 201 with
what `Save` left in it, whatever the body says; with the example library the body of the
pet Rex saves and returns a pet with empty `Name`, `Type` and `Family`.  When the decode
sets the receiver to nil, as for the body `null`, the call ends in a nil dereference.  When
decoding fails nothing is saved and the 400 response is written. -/
theorem PostPetByID_ignores_body :
    (∀ (lib : Lib) (db : List Pet) (w : ResponseWriter) (r : Request),
      lib.decodeReceiver r.Body = .kept →
      PostPetByID lib db w r =
        .returned
          ((lib.dbSave db {}).1, CreatedResponse lib w (Data.pet (lib.dbSave db {}).2))) ∧
    (∀ (lib : Lib) (db : List Pet) (w : ResponseWriter) (r : Request),
      lib.decodeReceiver r.Body = .setNil →
      PostPetByID lib db w r = .nilDereference) ∧
    (∀ (lib : Lib) (db : List Pet) (w : ResponseWriter) (r : Request) (err : String),
      lib.decodeReceiver r.Body = .failed err →
      PostPetByID lib db w r = .returned (db, BadRequestResponse lib w [err])) ∧
    exampleLib.decodePet rexBody
      = .ok { Name := "Rex", Type_ := "dog", Family := "canine" } ∧
    PostPetByID exampleLib [] {}
        { Method := "POST", RequestURI := "/v1/pet/1", Body := rexBody }
      = .returned
          ([{ ID := 1, Name := "", Type_ := "", Family := "" }],
            CreatedResponse exampleLib {}
              (Data.pet { ID := 1, Name := "", Type_ := "", Family := "" })) ∧
    (CreatedResponse exampleLib {}
      (Data.pet { ID := 1, Name := "", Type_ := "", Family := "" })).Code = 201 ∧
    PostPetByID exampleLib [] {}
        { Method := "POST", RequestURI := "/v1/pet/1", Body := nullBody }
      = .nilDereference ∧
    PostPetByID exampleLib [] {} { Method := "POST", RequestURI := "/v1/pet/1", Body := [] }
      = .returned ([], BadRequestResponse exampleLib {} ["EOF"]) := by
  refine ⟨?_, ?_, ?_, rfl, by decide, by decide, by decide, by decide⟩
  · intro lib db w r hdec
    simp only [PostPetByID, hdec]
  · intro lib db w r hdec
    simp only [PostPetByID, hdec]
  · intro lib db w r err hdec
    simp only [PostPetByID, hdec]

end pet

namespace utils

open models

/-! ## GetPaginationLinks -/

/-- A key that was filtered out is not found. -/
theorem lookup_filter_self (key : String) (vs : idpadapter.Values) :
    List.lookup key (vs.filter fun kv => kv.1 ≠ key) = none := by
  induction vs with
  | nil => rfl
  | cons kv vs ih =>
    obtain ⟨k, v⟩ := kv
    by_cases h : k = key
    · rw [List.filter_cons_of_neg (by simp [h])]
      exact ih
    · rw [List.filter_cons_of_pos (by simp [h])]
      have hk : (key == k) = false := by
        rw [beq_eq_false_iff_ne]
        exact fun e => h e.symm
      simp only [List.lookup, hk]
      exact ih

/-- Filtering out another key does not change what is found. -/
theorem lookup_filter_ne (key other : String) (hne : other ≠ key) (vs : idpadapter.Values) :
    List.lookup key (vs.filter fun kv => kv.1 ≠ other) = List.lookup key vs := by
  induction vs with
  | nil => rfl
  | cons kv vs ih =>
    obtain ⟨k, v⟩ := kv
    by_cases h : k = other
    · rw [List.filter_cons_of_neg (by simp [h])]
      have hk : (key == k) = false := by
        rw [beq_eq_false_iff_ne]
        exact fun e => hne (h.symm.trans e.symm)
      simp only [List.lookup, hk]
      exact ih
    · rw [List.filter_cons_of_pos (by simp [h])]
      cases hk : (key == k) with
      | true => simp only [List.lookup, hk]
      | false =>
        simp only [List.lookup, hk]
        exact ih

/-- Lookup in a list with one entry appended. -/
theorem lookup_append_single (key other : String) (value : List String) (l : idpadapter.Values) :
    List.lookup key (l ++ [(other, value)]) =
      match List.lookup key l with
      | some v => some v
      | none => if key = other then some value else none := by
  induction l with
  | nil =>
    by_cases h : key = other
    · simp [List.lookup, h]
    · have hk : (key == other) = false := by
        rw [beq_eq_false_iff_ne]; exact h
      simp [List.lookup, hk, h]
  | cons kv l ih =>
    obtain ⟨k, v⟩ := kv
    cases hk : (key == k) with
    | true => simp only [List.cons_append, List.lookup, hk]
    | false =>
      simp only [List.cons_append, List.lookup, hk]
      exact ih

/-- Setting a key twice keeps the second value only. -/
theorem valuesSet_valuesSet (values : idpadapter.Values) (key a b : String) :
    valuesSet (valuesSet values key a) key b = valuesSet values key b := by
  simp [valuesSet, List.filter_append, List.filter_filter]

/-- After `Set`, `Get` of the same key returns the value. -/
theorem valuesGet_valuesSet (values : idpadapter.Values) (key value : String) :
    valuesGet (valuesSet values key value) key = value := by
  unfold valuesGet valuesSet
  rw [lookup_append_single, lookup_filter_self]
  simp

/-- After `Set` of another key, `Get` returns what it returned before. -/
theorem valuesGet_valuesSet_ne (values : idpadapter.Values) (key other value : String)
    (hne : other ≠ key) :
    valuesGet (valuesSet values other value) key = valuesGet values key := by
  unfold valuesGet valuesSet
  rw [lookup_append_single, lookup_filter_ne key other hne]
  have h : ¬ key = other := fun e => hne e.symm
  cases List.lookup key values <;> simp [h]

/-- A value within the 64-bit range is not changed by wrapping. -/
theorem wrapInt_of_range (x : Int) (hlo : -2 ^ 63 ≤ x) (hhi : x < 2 ^ 63) :
    wrapInt x = x := by
  unfold wrapInt
  omega

/-- With proper parameters, the four links in terms of page links. -/
theorem GetPaginationLinks_proper (lib : Lib) (req : HTTPRequest)
    (responseSize limit offset : Int)
    (hproper : isPaginationParamsProper responseSize limit offset = true) :
    (GetPaginationLinks lib req responseSize limit offset).1 =
      { First := pageLink lib req limit "0"
        Prev :=
          if wrapInt (offset - limit) ≥ 0 then
            pageLink lib req limit (Itoa (wrapInt (offset - limit)))
          else ""
        Next :=
          if responseSize < limit then ""
          else pageLink lib req limit (Itoa (wrapInt (offset + limit)))
        Last := if responseSize < limit then pageLink lib req limit (Itoa offset) else "" } := by
  unfold GetPaginationLinks
  simp only [hproper, Bool.not_true, Bool.false_eq_true, if_false]
  split_ifs <;> simp only [pageLink, valuesSet_valuesSet]

/-- C24 (counterexample): `responseSize = 10`, `limit = 1` and `offset = 2 ^ 63 - 1` are
non-negative values of `int`, and the response fills the page, yet the offset that `Next`
carries is `-9223372036854775808`, not `offset + limit`. -/
theorem GetPaginationLinks_next_wraps :
    isPaginationParamsProper 10 1 9223372036854775807 = true ∧
    (GetPaginationLinks exampleLib petPageRequest 10 1 9223372036854775807).1.Next
      = "/v1/pet?limit=1&offset=-9223372036854775808" ∧
    (GetPaginationLinks exampleLib petPageRequest 10 1 9223372036854775807).1.Next
      ≠ pageLink exampleLib petPageRequest 1 (Itoa (9223372036854775807 + 1)) ∧
    pageLink exampleLib petPageRequest 1 (Itoa (9223372036854775807 + 1))
      = "/v1/pet?limit=1&offset=9223372036854775808" := by
  decide

/-- C24 (amended): for parameters in the range of `int`, if all three are non-negative then
`First` is the page link with the given limit and offset 0; with `responseSize < limit`
`Last` is the page link with the given offset and `Next` is empty, otherwise `Next` is
the page link with `offset + limit` (the 64-bit sum, which is the exact sum when that is
below `2 ^ 63`) and `Last` is empty; `Prev` is the page link with `offset - limit` when
that is not negative and is empty otherwise; a page link carries the limit and the
offset it is built for, so when page links are not empty exactly one of `Next` and
`Last` is set.  If any parameter is negative all four links are empty. -/
theorem GetPaginationLinks_links (lib : Lib) (req : HTTPRequest)
    (responseSize limit offset : Int)
    (hlimit : -2 ^ 63 ≤ limit ∧ limit < 2 ^ 63)
    (hoffset : -2 ^ 63 ≤ offset ∧ offset < 2 ^ 63) :
    (0 ≤ responseSize → 0 ≤ limit → 0 ≤ offset →
      (GetPaginationLinks lib req responseSize limit offset).1.First
        = pageLink lib req limit "0" ∧
      (responseSize < limit →
        (GetPaginationLinks lib req responseSize limit offset).1.Last
          = pageLink lib req limit (Itoa offset) ∧
        (GetPaginationLinks lib req responseSize limit offset).1.Next = "") ∧
      (limit ≤ responseSize →
        (GetPaginationLinks lib req responseSize limit offset).1.Next
          = pageLink lib req limit (Itoa (wrapInt (offset + limit))) ∧
        (GetPaginationLinks lib req responseSize limit offset).1.Last = "" ∧
        (offset + limit < 2 ^ 63 → wrapInt (offset + limit) = offset + limit)) ∧
      (0 ≤ offset - limit →
        (GetPaginationLinks lib req responseSize limit offset).1.Prev
          = pageLink lib req limit (Itoa (offset - limit))) ∧
      (offset - limit < 0 →
        (GetPaginationLinks lib req responseSize limit offset).1.Prev = "") ∧
      ((∀ off : String, pageLink lib req limit off ≠ "") →
        ((GetPaginationLinks lib req responseSize limit offset).1.Next = "" ↔
          (GetPaginationLinks lib req responseSize limit offset).1.Last ≠ ""))) ∧
    (∀ off : String,
      valuesGet
        (valuesSet (valuesSet (lib.ParseQuery req.URL.RawQuery) "limit" (Itoa limit))
          "offset" off) "limit" = Itoa limit ∧
      valuesGet
        (valuesSet (valuesSet (lib.ParseQuery req.URL.RawQuery) "limit" (Itoa limit))
          "offset" off) "offset" = off) ∧
    (responseSize < 0 ∨ limit < 0 ∨ offset < 0 →
      (GetPaginationLinks lib req responseSize limit offset).1
        = { First := "", Prev := "", Next := "", Last := "" }) := by
  refine ⟨?_, ?_, ?_⟩
  · intro hrs hl ho
    have hproper : isPaginationParamsProper responseSize limit offset = true := by
      simp [isPaginationParamsProper, hrs, hl, ho]
    have hprev : wrapInt (offset - limit) = offset - limit :=
      wrapInt_of_range _ (by omega) (by omega)
    rw [GetPaginationLinks_proper lib req responseSize limit offset hproper, hprev]
    refine ⟨rfl, ?_, ?_, ?_, ?_, ?_⟩
    · intro hlt
      simp only [hlt, if_true, and_self]
    · intro hge
      have hlt : ¬ responseSize < limit := not_lt.mpr hge
      simp only [hlt, if_false, true_and]
      exact fun hsum => wrapInt_of_range _ (by omega) hsum
    · intro hp
      simp only [ge_iff_le, hp, if_true]
    · intro hp
      have hp2 : ¬ offset - limit ≥ 0 := not_le.mpr hp
      simp only [hp2, if_false]
    · intro hne
      by_cases hlt : responseSize < limit
      · simp only [hlt, if_true, true_iff]
        exact hne _
      · simp only [hlt, if_false, ne_eq, not_true_eq_false, iff_false]
        exact hne _
  · intro off
    constructor
    · rw [valuesGet_valuesSet_ne _ _ _ _ (by decide), valuesGet_valuesSet]
    · rw [valuesGet_valuesSet]
  · intro hneg
    have hproper : isPaginationParamsProper responseSize limit offset = false := by
      simp only [isPaginationParamsProper, Bool.and_eq_false_iff, decide_eq_false_iff_not,
        ge_iff_le, not_le]
      rcases hneg with h | h | h
      · exact Or.inl (Or.inl h)
      · exact Or.inl (Or.inr h)
      · exact Or.inr h
    simp [GetPaginationLinks, hproper]

/-- Witness of C24 (amended): the third page of ten pets, full, with the example
library. -/
theorem GetPaginationLinks_links_witness :
    (GetPaginationLinks exampleLib petPageRequest 10 10 20).1 =
      { First := "/v1/pet?limit=10&offset=0", Prev := "/v1/pet?limit=10&offset=10"
        Next := "/v1/pet?limit=10&offset=30", Last := "" } ∧
    (GetPaginationLinks exampleLib petPageRequest 10 10 20).1.First
      = pageLink exampleLib petPageRequest 10 "0" :=
  ⟨by decide,
   ((GetPaginationLinks_links exampleLib petPageRequest 10 10 20 (by decide) (by decide)).1
      (by decide) (by decide) (by decide)).1⟩

end utils

namespace idpadapter

/-- C28: `LogoutLink` does not modify the adapter.  Run statement by statement, it leaves
the adapter cell as it was (the stored issuer URL with its path and query included) and
returns the link of `LogoutLink`; a second call on the adapter left by the first returns
the same link, built from the stored issuer path with the logout path appended once. -/
theorem LogoutLink_does_not_modify (w : World) (ia : IdentityProviderAdapter)
    (params : Values) :
    (LogoutLinkOnState w ia params).1 = ia ∧
    (LogoutLinkOnState w ia params).1.issuerURL = ia.issuerURL ∧
    (LogoutLinkOnState w ia params).2 = LogoutLink w ia params ∧
    (LogoutLinkOnState w (LogoutLinkOnState w ia params).1 params).2
      = (LogoutLinkOnState w ia params).2 ∧
    (logoutURL w (LogoutLinkOnState w ia params).1 params).Path
      = ia.issuerURL.Path ++ ("/" ++ TrimLeft ia.issuerLogoutPath "/") :=
  ⟨rfl, rfl, rfl, rfl, rfl⟩

end idpadapter

namespace logger

/-! ## IsTimeStampValid -/

/-- C26 (failing input): at the example clock a stamp one hour after now is accepted,
and a stamp one hour after the instant ten years before now is rejected, so validity is
not what the doc comment of the function says, "before now and after -validYears". -/
theorem IsTimeStampValid_not_now_bounds :
    IsTimeStampValid exampleClock { sec := 1609459200 + 3600 } = true ∧
    After { sec := 1609459200 + 3600 } exampleClock.Now = true ∧
    IsTimeStampValid exampleClock
      { sec := (exampleClock.AddDate exampleClock.Now (-10) 0 0).sec + 3600 } = false ∧
    Before { sec := (exampleClock.AddDate exampleClock.Now (-10) 0 0).sec + 3600 }
      (exampleClock.AddDate exampleClock.Now (-10) 0 0) = false ∧
    ¬ (∀ stamp : idpadapter.Time,
      IsTimeStampValid exampleClock stamp = true ↔
        After stamp exampleClock.Now = false ∧
          Before stamp (exampleClock.AddDate exampleClock.Now (-validYears) 0 0)
            = false) := by
  refine ⟨by decide, by decide, by decide, by decide, ?_⟩
  intro h
  have h1 := (h { sec := 1609459200 + 3600 }).mp (by decide)
  exact absurd h1.1 (by decide)

/-- The bounds that `IsTimeStampValid` compares with are those of the day after now: it
returns true exactly for the stamps that are not after the day after now and not before
the instant ten years before the day after now. -/
theorem IsTimeStampValid_iff (clock : Clock) (stamp : idpadapter.Time) :
    IsTimeStampValid clock stamp = true ↔
      After stamp (clock.AddDate clock.Now 0 0 1) = false ∧
        Before stamp (clock.AddDate (clock.AddDate clock.Now 0 0 1) (-10) 0 0) = false := by
  unfold IsTimeStampValid
  simp only [validYears]
  split_ifs with h1 h2
  · simp [h1]
  · simp [h2]
  · simp [h1, h2]

end logger

namespace logger

/-! ## Tracking ids -/

/-- Splitting returns at least one part. -/
theorem splitChars_ne_nil (sep : Char) (cs : List Char) : splitChars sep cs ≠ [] := by
  cases cs with
  | nil => simp [splitChars]
  | cons c cs =>
    unfold splitChars
    split_ifs
    · simp
    · split <;> simp

/-- Without the separator there is one part, the whole. -/
theorem splitChars_of_not_mem (sep : Char) (cs : List Char) (h : sep ∉ cs) :
    splitChars sep cs = [cs] := by
  induction cs with
  | nil => rfl
  | cons c cs ih =>
    have hc : c ≠ sep := fun e => h (by simp [e])
    have hcs : sep ∉ cs := fun e => h (by simp [e])
    simp [splitChars, hc, ih hcs]

/-- The part before the first separator. -/
theorem splitChars_append_sep (sep : Char) (xs ys : List Char) (h : sep ∉ xs) :
    splitChars sep (xs ++ sep :: ys) = xs :: splitChars sep ys := by
  induction xs with
  | nil => simp [splitChars]
  | cons c cs ih =>
    have hc : c ≠ sep := fun e => h (by simp [e])
    have hcs : sep ∉ cs := fun e => h (by simp [e])
    simp [splitChars, hc, ih hcs]

/-- Splitting distributes over a separator. -/
theorem splitChars_append (sep : Char) (xs ys : List Char) :
    splitChars sep (xs ++ sep :: ys) = splitChars sep xs ++ splitChars sep ys := by
  induction xs with
  | nil => simp [splitChars]
  | cons c cs ih =>
    by_cases hc : c = sep
    · simp [splitChars, hc, ih]
    · cases h : splitChars sep cs with
      | nil => exact absurd h (splitChars_ne_nil sep cs)
      | cons p ps =>
        have h1 : splitChars sep (c :: (cs ++ sep :: ys))
            = (match splitChars sep (cs ++ sep :: ys) with
              | [] => [[c]]
              | part :: parts => (c :: part) :: parts) := by
          rw [splitChars, if_neg hc]
        have h2 : splitChars sep (c :: cs)
            = (match splitChars sep cs with
              | [] => [[c]]
              | part :: parts => (c :: part) :: parts) := by
          rw [splitChars, if_neg hc]
        rw [List.cons_append, h1, h2, ih, h]
        rfl

/-- The loop of `mapFromPairsToString` appends the rendered pairs. -/
theorem appendPairs_flatten (nvs : List (String × String)) (acc : String) :
    (appendPairs (flattenPairs nvs) acc).data = acc.data ++ renderPairs nvs := by
  induction nvs generalizing acc with
  | nil => simp [flattenPairs, appendPairs, renderPairs]
  | cons nv rest ih =>
    obtain ⟨n, v⟩ := nv
    simp [flattenPairs, appendPairs, renderPairs, ih, String.data_append]

/-- The argument list of a list of pairs has even length. -/
theorem flattenPairs_length (nvs : List (String × String)) :
    (flattenPairs nvs).length = 2 * nvs.length := by
  induction nvs with
  | nil => rfl
  | cons nv rest ih =>
    obtain ⟨n, v⟩ := nv
    simp [flattenPairs, ih]
    omega

/-- Splitting the rendered pairs at `_` gives one part `name:value` per pair. -/
theorem splitChars_renderPairs (nvs : List (String × String))
    (hclean : ∀ nv ∈ nvs, '_' ∉ nv.1.data ∧ '_' ∉ nv.2.data) (nv : String × String)
    (hnv : '_' ∉ nv.1.data ∧ '_' ∉ nv.2.data) :
    splitChars '_' (nv.1.data ++ ':' :: (nv.2.data ++ renderPairs nvs)) =
      (nv :: nvs).map fun p => p.1.data ++ ':' :: p.2.data := by
  induction nvs generalizing nv with
  | nil =>
    simp only [renderPairs, List.append_nil, List.map]
    apply splitChars_of_not_mem
    simp [hnv.1, hnv.2]
  | cons q rest ih =>
    obtain ⟨n, v⟩ := q
    have hq := hclean (n, v) (by simp)
    have hrest : ∀ p ∈ rest, '_' ∉ p.1.data ∧ '_' ∉ p.2.data :=
      fun p hp => hclean p (by simp [hp])
    have hsplit : nv.1.data ++ ':' :: (nv.2.data ++ renderPairs ((n, v) :: rest)) =
        (nv.1.data ++ ':' :: nv.2.data) ++ '_' :: (n.data ++ ':' :: (v.data ++ renderPairs rest)) := by
      simp [renderPairs]
    rw [hsplit, splitChars_append_sep _ _ _ (by simp [hnv.1, hnv.2]), ih hrest (n, v) hq]
    simp

/-- Splitting `name:value` at `:` gives the name and the value. -/
theorem Split_segment (n v : String) (hn : ':' ∉ n.data) (hv : ':' ∉ v.data) :
    Split (String.mk (n.data ++ ':' :: v.data)) ':' = [n, v] := by
  unfold Split
  rw [splitChars_append_sep _ _ _ hn, splitChars_of_not_mem _ _ hv]
  rfl

/-- Setting a new key appends the entry. -/
theorem mapSet_of_not_mem (pairs : List (String × String)) (name value : String)
    (h : name ∉ pairs.map Prod.fst) : mapSet pairs name value = pairs ++ [(name, value)] := by
  unfold mapSet
  have hany : (pairs.any fun kv => decide (kv.1 = name)) = false := by
    rw [List.any_eq_false]
    intro kv hkv
    simp only [decide_eq_true_eq]
    intro e
    exact h (List.mem_map.mpr ⟨kv, hkv, e⟩)
  simp [hany]

/-- The loop of `TrackingNameValuePairs` on parts `name:value` with new, distinct
names adds the pairs in order. -/
theorem collectPairs_segments (nvs acc : List (String × String))
    (hclean : ∀ nv ∈ nvs, ':' ∉ nv.1.data ∧ ':' ∉ nv.2.data)
    (hnodup : ((acc ++ nvs).map Prod.fst).Nodup) :
    collectPairs (nvs.map fun p => String.mk (p.1.data ++ ':' :: p.2.data)) acc
      = (acc ++ nvs, none) := by
  induction nvs generalizing acc with
  | nil => simp [collectPairs]
  | cons nv rest ih =>
    obtain ⟨n, v⟩ := nv
    have hq := hclean (n, v) (by simp)
    have hrest : ∀ p ∈ rest, ':' ∉ p.1.data ∧ ':' ∉ p.2.data :=
      fun p hp => hclean p (by simp [hp])
    have hnot : n ∉ acc.map Prod.fst := by
      intro hmem
      rw [List.map_append, List.map_cons] at hnodup
      have := (List.nodup_append.mp hnodup).2.2
      exact this hmem (by simp)
    simp only [List.map_cons, collectPairs, Split_segment n v hq.1 hq.2]
    rw [mapSet_of_not_mem acc n v hnot, ih (acc ++ [(n, v)]) hrest (by simpa using hnodup)]
    simp

/-- Every argument list of even length is the argument list of a list of pairs. -/
theorem flattenPairs_of_even : ∀ (pairs : List String), pairs.length % 2 = 0 →
    ∃ nvs : List (String × String), pairs = flattenPairs nvs
  | [], _ => ⟨[], rfl⟩
  | [_], h => by simp at h
  | a :: b :: rest, h => by
    have hr : rest.length % 2 = 0 := by
      simp only [List.length_cons] at h
      omega
    obtain ⟨nvs, hnvs⟩ := flattenPairs_of_even rest hr
    exact ⟨(a, b) :: nvs, by simp [flattenPairs, hnvs]⟩

/-- Adding the pairs of a list and reading them back returns the list. -/
theorem TrackingNameValuePairs_of_AddTrackingNameValuePairs (trackingID : String) (nvs : List (String × String))
    (hid : (Split trackingID '_').length = 2) (hne : nvs ≠ [])
    (hnodup : (nvs.map Prod.fst).Nodup)
    (hclean : ∀ nv ∈ nvs, ('_' ∉ nv.1.data ∧ ':' ∉ nv.1.data) ∧
      ('_' ∉ nv.2.data ∧ ':' ∉ nv.2.data)) :
    (AddTrackingNameValuePairs trackingID (flattenPairs nvs)).2 = none ∧
    TrackingNameValuePairs (AddTrackingNameValuePairs trackingID (flattenPairs nvs)).1
      = (nvs, none) := by
  have hadd : AddTrackingNameValuePairs trackingID (flattenPairs nvs)
      = (trackingID ++ appendPairs (flattenPairs nvs) "", none) := by
    have hlen := flattenPairs_length nvs
    simp [AddTrackingNameValuePairs, mapFromPairsToString, checkPairs, hlen]
  rw [hadd]
  refine ⟨rfl, ?_⟩
  match nvs, hne, hnodup, hclean with
  | nv :: rest, _, hnodup, hclean =>
    have hdata : (trackingID ++ appendPairs (flattenPairs (nv :: rest)) "").data
        = trackingID.data ++ '_' :: (nv.1.data ++ ':' :: (nv.2.data ++ renderPairs rest)) := by
      rw [String.data_append, appendPairs_flatten]
      obtain ⟨n, v⟩ := nv
      simp [renderPairs]
    have hu : ∀ p ∈ nv :: rest, '_' ∉ p.1.data ∧ '_' ∉ p.2.data :=
      fun p hp => ⟨(hclean p hp).1.1, (hclean p hp).2.1⟩
    have hc : ∀ p ∈ nv :: rest, ':' ∉ p.1.data ∧ ':' ∉ p.2.data :=
      fun p hp => ⟨(hclean p hp).1.2, (hclean p hp).2.2⟩
    have hparts : Split (trackingID ++ appendPairs (flattenPairs (nv :: rest)) "") '_'
        = Split trackingID '_' ++
          (nv :: rest).map fun p => String.mk (p.1.data ++ ':' :: p.2.data) := by
      unfold Split
      rw [hdata, splitChars_append,
        splitChars_renderPairs rest (fun p hp => hu p (by simp [hp])) nv (hu nv (by simp))]
      simp
    unfold TrackingNameValuePairs
    simp only [hparts]
    have hlen3 : ¬ (Split trackingID '_' ++
        (nv :: rest).map fun p => String.mk (p.1.data ++ ':' :: p.2.data)).length < 3 := by
      simp [hid]
      omega
    rw [if_neg hlen3, List.drop_append_of_le_length (by omega)]
    have hdrop : (Split trackingID '_').drop 2 = [] := by
      apply List.drop_eq_nil_of_le
      omega
    rw [hdrop, List.nil_append, collectPairs_segments (nv :: rest) [] hc (by simpa using hnodup)]
    simp

/-- C25: for a tracking id with exactly one `_` and a non-empty list of name:value pairs
with distinct names in which no string contains `_` or `:`, `AddTrackingNameValuePairs`
on the argument list of the pairs returns no error and `TrackingNameValuePairs` of its
result returns no error and the map holding exactly those pairs; every argument list of
even length is the argument list of a list of pairs; and for an argument list of odd
length `AddTrackingNameValuePairs` returns an error and the tracking id unchanged. -/
theorem tracking_pairs_round_trip (trackingID : String) (nvs : List (String × String))
    (hid : (Split trackingID '_').length = 2) (hne : nvs ≠ [])
    (hnodup : (nvs.map Prod.fst).Nodup)
    (hclean : ∀ nv ∈ nvs, ('_' ∉ nv.1.data ∧ ':' ∉ nv.1.data) ∧
      ('_' ∉ nv.2.data ∧ ':' ∉ nv.2.data)) :
    (AddTrackingNameValuePairs trackingID (flattenPairs nvs)).2 = none ∧
    TrackingNameValuePairs (AddTrackingNameValuePairs trackingID (flattenPairs nvs)).1
      = (nvs, none) ∧
    (∀ pairs : List String, pairs.length % 2 = 0 →
      ∃ pairList : List (String × String), pairs = flattenPairs pairList) ∧
    (∀ pairs : List String, pairs.length % 2 = 1 →
      ∃ err : String, AddTrackingNameValuePairs trackingID pairs = (trackingID, some err)) := by
  obtain ⟨h1, h2⟩ :=
    TrackingNameValuePairs_of_AddTrackingNameValuePairs trackingID nvs hid hne hnodup hclean
  refine ⟨h1, h2, flattenPairs_of_even, ?_⟩
  intro pairs hodd
  refine ⟨"number of parameters must be multiple of 2, got " ++ fmtV pairs, ?_⟩
  simp [AddTrackingNameValuePairs, mapFromPairsToString, checkPairs, hodd]

/-- Witness of C25: two pairs added to the tracking id `svc_0123`. -/
theorem tracking_pairs_round_trip_witness :
    AddTrackingNameValuePairs "svc_0123" ["tenant", "t1", "user", "u7"]
      = ("svc_0123_tenant:t1_user:u7", none) ∧
    TrackingNameValuePairs
        (AddTrackingNameValuePairs "svc_0123"
          (flattenPairs [("tenant", "t1"), ("user", "u7")])).1
      = ([("tenant", "t1"), ("user", "u7")], none) :=
  ⟨by decide,
   (tracking_pairs_round_trip "svc_0123" [("tenant", "t1"), ("user", "u7")] (by decide)
      (by decide) (by decide) (by decide)).2.1⟩

end logger

namespace logger

/-! ## UUID text -/

/-- Decoding a hexadecimal digit returns its value. -/
theorem fromHexChar_hexDigit (d : Nat) (h : d < 16) : fromHexChar (hexDigit d) = some d := by
  interval_cases d <;> rfl

/-- Decoding the digit of the high four bits. -/
theorem fromHexChar_hexDigit_high (b : Nat) :
    fromHexChar (hexDigit (b / 16 % 16)) = some (b / 16 % 16) :=
  fromHexChar_hexDigit _ (Nat.mod_lt _ (by decide))

/-- Decoding the digit of the low four bits. -/
theorem fromHexChar_hexDigit_low (b : Nat) :
    fromHexChar (hexDigit (b % 16)) = some (b % 16) :=
  fromHexChar_hexDigit _ (Nat.mod_lt _ (by decide))

/-- Joining two four-bit values. -/
theorem joinNibbles_of_lt : ∀ x < 16, ∀ y < 16, joinNibbles x y = 16 * x + y := by
  decide

/-- A byte is the join of its high and low four bits. -/
theorem joinNibbles_split (b : Nat) (h : b < 256) :
    joinNibbles (b / 16 % 16) (b % 16) = b := by
  rw [joinNibbles_of_lt _ (Nat.mod_lt _ (by decide)) _ (Nat.mod_lt _ (by decide))]
  omega

/-- A hexadecimal digit of the table is lower-case. -/
theorem isLowerHexChar_hexDigit (d : Nat) (h : d < 16) : isLowerHexChar (hexDigit d) := by
  unfold isLowerHexChar hexDigit
  split_ifs <;> omega

/-- The encoding has two characters per byte. -/
theorem hexEncode_length (bs : List Nat) : (hexEncode bs).length = 2 * bs.length := by
  induction bs with
  | nil => rfl
  | cons b bs ih => simp [hexEncode, ih]; omega

/-- Decoding the encoding of bytes writes those bytes. -/
theorem hexDecodeLoop_hexEncode (bs dst : List Nat) (i : Nat)
    (hbyte : ∀ b ∈ bs, b < 256) (hfit : i + bs.length ≤ dst.length) :
    hexDecodeLoop dst i (hexEncode bs) =
      Run.returned (dst.take i ++ bs ++ dst.drop (i + bs.length), i + bs.length, none) := by
  induction bs generalizing dst i with
  | nil => simp [hexEncode, hexDecodeLoop]
  | cons b bs ih =>
    have hb : b < 256 := hbyte b (by simp)
    have hbs : ∀ c ∈ bs, c < 256 := fun c hc => hbyte c (by simp [hc])
    have hi : i < dst.length := by simp at hfit; omega
    simp only [hexEncode, hexDecodeLoop, fromHexChar_hexDigit_high, fromHexChar_hexDigit_low,
      joinNibbles_split b hb, hi, if_true]
    rw [ih (dst.set i b) (i + 1) hbs (by simp at hfit ⊢; omega)]
    have hset : dst.set i b = dst.take i ++ b :: dst.drop (i + 1) :=
      List.set_eq_take_cons_drop b hi
    have hlen : (dst.take i).length = i := by
      rw [List.length_take]
      omega
    have h1 : (dst.set i b).take (i + 1) = dst.take i ++ [b] := by
      rw [hset, List.take_append_eq_append_take, hlen]
      simp [List.take_of_length_le (Nat.le_of_eq hlen)]
    have h2 : (dst.set i b).drop (i + 1 + bs.length) = dst.drop (i + (b :: bs).length) := by
      rw [List.drop_set_of_lt b dst (by omega)]
      simp only [List.length_cons]
      congr 1
      omega
    rw [h1, h2]
    simp only [List.length_cons, List.append_assoc, List.singleton_append]
    congr 3
    omega

/-- The round trip on sixteen named bytes. -/
theorem FromString_String_explicit (b0 b1 b2 b3 b4 b5 b6 b7 b8 b9 b10 b11 b12 b13 b14 b15 : Nat) (h0 : b0 < 256) (h1 : b1 < 256) (h2 : b2 < 256) (h3 : b3 < 256) (h4 : b4 < 256) (h5 : b5 < 256) (h6 : b6 < 256) (h7 : b7 < 256) (h8 : b8 < 256) (h9 : b9 < 256) (h10 : b10 < 256) (h11 : b11 < 256) (h12 : b12 < 256) (h13 : b13 < 256) (h14 : b14 < 256) (h15 : b15 < 256) :
    FromString (UUID.String ⟨[b0, b1, b2, b3, b4, b5, b6, b7, b8, b9, b10, b11, b12, b13, b14, b15]⟩) = Run.returned (⟨[b0, b1, b2, b3, b4, b5, b6, b7, b8, b9, b10, b11, b12, b13, b14, b15]⟩, none) := by
  simp [FromString, UUID.UnmarshalText, UUID.String, hexEncode, uuidStringLength,
    uuidBytesLength, dash, unmarshalGroups, hexDecode, hexDecodeLoop,
    fromHexChar_hexDigit_high, fromHexChar_hexDigit_low, List.replicate,
    joinNibbles_split b0 h0, joinNibbles_split b1 h1, joinNibbles_split b2 h2, joinNibbles_split b3 h3, joinNibbles_split b4 h4, joinNibbles_split b5 h5, joinNibbles_split b6 h6, joinNibbles_split b7 h7, joinNibbles_split b8 h8, joinNibbles_split b9 h9, joinNibbles_split b10 h10, joinNibbles_split b11 h11, joinNibbles_split b12 h12, joinNibbles_split b13 h13, joinNibbles_split b14 h14, joinNibbles_split b15 h15]

/-- The characters that `fromHexChar` rejects. -/
theorem fromHexChar_eq_none_iff (c : Nat) : fromHexChar c = none ↔ ¬ isHexChar c := by
  unfold fromHexChar isHexChar
  split_ifs with h1 h2 h3
  · simp [h1]
  · simp [h2]
  · simp [h3]
  · simp [h1, h2, h3]

/-- On a source of even length that fits the destination, `hex.Decode` returns, keeps
the length of the destination, and reports no error exactly when every character is
hexadecimal. -/
theorem hexDecodeLoop_cases (k : Nat) (src dst : List Nat) (i : Nat)
    (hsrc : src.length = 2 * k) (hfit : i + k ≤ dst.length) :
    ∃ (written : List Nat) (n : Nat) (err : Option UnmarshalError),
      hexDecodeLoop dst i src = Run.returned (written, n, err) ∧
      written.length = dst.length ∧ (err = none ↔ ∀ c ∈ src, isHexChar c) := by
  induction k generalizing src dst i with
  | zero =>
    have hnil : src = [] := List.length_eq_zero.mp (by simpa using hsrc)
    subst hnil
    exact ⟨dst, i, none, rfl, rfl, by simp⟩
  | succ k ih =>
    match src, hsrc with
    | a :: b :: rest, hsrc =>
      have hrest : rest.length = 2 * k := by
        simp only [List.length_cons] at hsrc
        omega
      cases ha : fromHexChar a with
      | none =>
        refine ⟨dst, i, some (UnmarshalError.invalidByte a), by simp [hexDecodeLoop, ha],
          rfl, ?_⟩
        have hna := (fromHexChar_eq_none_iff a).mp ha
        simp [hna]
      | some x =>
        have hxa : isHexChar a := by
          by_contra hn
          rw [(fromHexChar_eq_none_iff a).mpr hn] at ha
          cases ha
        cases hb : fromHexChar b with
        | none =>
          refine ⟨dst, i, some (UnmarshalError.invalidByte b),
            by simp [hexDecodeLoop, ha, hb], rfl, ?_⟩
          have hnb := (fromHexChar_eq_none_iff b).mp hb
          simp [hnb]
        | some y =>
          have hxb : isHexChar b := by
            by_contra hn
            rw [(fromHexChar_eq_none_iff b).mpr hn] at hb
            cases hb
          have hi : i < dst.length := by omega
          obtain ⟨written, n, err, hrun, hlen, hiff⟩ :=
            ih rest (dst.set i (joinNibbles x y)) (i + 1) hrest
              (by rw [List.length_set]; omega)
          refine ⟨written, n, err, by simp [hexDecodeLoop, ha, hb, hi, hrun],
            by rw [hlen, List.length_set], ?_⟩
          rw [hiff]
          simp [hxa, hxb]

/-- With enough text and enough room in the array, the loop of `UnmarshalText` returns,
keeps the length of the array, and reports no error exactly when every character it
decodes is hexadecimal. -/
theorem unmarshalGroups_spec (byteGroups : List Nat) (i : Nat) (src : List Nat) (off : Nat)
    (ud : List Nat) (heven : ∀ g ∈ byteGroups, g % 2 = 0)
    (htext : textNeeded byteGroups i ≤ src.length)
    (hbytes : off + bytesNeeded byteGroups ≤ ud.length) :
    ∃ (bytes : List Nat) (err : Option UnmarshalError),
      unmarshalGroups byteGroups i src off ud = Run.returned (bytes, err) ∧
      bytes.length = ud.length ∧ (err = none ↔ hexGroups byteGroups i src) := by
  induction byteGroups generalizing i src off ud with
  | nil => exact ⟨ud, none, rfl, rfl, by simp [hexGroups]⟩
  | cons g gs ih =>
    have hg : g % 2 = 0 := heven g (by simp)
    have hgs : ∀ g' ∈ gs, g' % 2 = 0 := fun g' h => heven g' (by simp [h])
    simp only [textNeeded] at htext
    simp only [bytesNeeded] at hbytes
    have hskip : ¬ (i > 0 ∧ src.length < 1) := by
      intro h
      have : (if i > 0 then 1 else 0) = 1 := by simp [h.1]
      omega
    have hsrc1 : g + textNeeded gs (i + 1) ≤ (if i > 0 then src.drop 1 else src).length := by
      by_cases hi : i > 0
      · simp only [hi, if_true, List.length_drop] at htext ⊢
        omega
      · simp only [hi, if_false] at htext ⊢
        omega
    have hbound : ¬ (ud.length - off < g / 2 ∨
        (if i > 0 then src.drop 1 else src).length < g) := by
      intro h
      rcases h with h | h <;> omega
    obtain ⟨written, n, err, hrun, hlen, hiff⟩ :=
      hexDecodeLoop_cases (g / 2) ((if i > 0 then src.drop 1 else src).take g)
        ((ud.drop off).take (g / 2)) 0
        (by rw [List.length_take]; omega)
        (by rw [List.length_take, List.length_drop]; omega)
    have hwlen : written.length = g / 2 := by
      rw [hlen, List.length_take, List.length_drop]
      omega
    have hudlen : (ud.take off ++ written ++ ud.drop (off + g / 2)).length = ud.length := by
      simp only [List.length_append, List.length_take, List.length_drop, hwlen]
      omega
    cases err with
    | some e =>
      refine ⟨ud.take off ++ written ++ ud.drop (off + g / 2), some e, ?_, hudlen, ?_⟩
      · simp only [unmarshalGroups, hskip, if_false, hbound, hexDecode, hrun]
      · have hnot : ¬ ∀ c ∈ (if i > 0 then src.drop 1 else src).take g, isHexChar c := by
          intro hall
          have := hiff.mpr hall
          cases this
        constructor
        · intro h
          cases h
        · intro h
          exact absurd h.1 hnot
    | none =>
      obtain ⟨bytes, err2, hrun2, hlen2, hiff2⟩ :=
        ih (i + 1) ((if i > 0 then src.drop 1 else src).drop g) (off + g / 2)
          (ud.take off ++ written ++ ud.drop (off + g / 2)) hgs
          (by rw [List.length_drop]; omega) (by rw [hudlen]; omega)
      refine ⟨bytes, err2, ?_, by rw [hlen2, hudlen], ?_⟩
      · simp only [unmarshalGroups, hskip, if_false, hbound, hexDecode, hrun, hrun2]
      · rw [hiff2]
        have hall := hiff.mp rfl
        constructor
        · intro h
          exact ⟨hall, h⟩
        · intro h
          exact h.2


/-- A list of positive length has a head. -/
theorem cons_of_length_succ {l : List Nat} {n : Nat} (h : l.length = n + 1) :
    ∃ (b : Nat) (t : List Nat), l = b :: t ∧ t.length = n := by
  cases l with
  | nil => simp at h
  | cons b t => exact ⟨b, t, rfl, by simpa using h⟩

/-- The elements of a slice are the elements at the indices of the slice. -/
theorem forall_mem_take_drop (P : Nat → Prop) (l : List Nat) (a g : Nat) :
    (∀ c ∈ (l.drop a).take g, P c) ↔
      ∀ i c, a ≤ i → i < a + g → l[i]? = some c → P c := by
  constructor
  · intro h i c hai hig hc
    apply h c
    rw [List.mem_iff_getElem?]
    refine ⟨i - a, ?_⟩
    rw [List.getElem?_take_of_lt (by omega), List.getElem?_drop]
    have : a + (i - a) = i := by omega
    rw [this, hc]
  · intro h c hc
    rw [List.mem_iff_getElem?] at hc
    obtain ⟨n, hn⟩ := hc
    have hlt : n < g := by
      by_contra hge
      rw [List.getElem?_take_eq_none (by omega)] at hn
      cases hn
    rw [List.getElem?_take_of_lt hlt, List.getElem?_drop] at hn
    exact h (a + n) c (by omega) (by omega) hn

/-- On a text of 36 characters the loop decodes exactly the positions other than 8, 13,
18 and 23. -/
theorem hexGroups_text (text : List Nat) (hlen : text.length = 36) :
    hexGroups [8, 4, 4, 4, 12] 0 text ↔
      ∀ i : Nat, i < 36 → i ≠ 8 → i ≠ 13 → i ≠ 18 → i ≠ 23 →
        ∃ c, text[i]? = some c ∧ isHexChar c := by
  have h0 : (∀ c ∈ text.take 8, isHexChar c) ↔ ∀ c ∈ (text.drop 0).take 8, isHexChar c := by
    rw [List.drop_zero]
  simp only [hexGroups, Nat.lt_irrefl, gt_iff_lt, if_false, Nat.zero_lt_succ, if_true,
    zero_add, Nat.reduceAdd, List.drop_drop, and_true]
  rw [h0]
  simp only [forall_mem_take_drop]
  constructor
  · rintro ⟨g1, g2, g3, g4, g5⟩ i hi h8 h13 h18 h23
    have hsome : ∃ c, text[i]? = some c := by
      rw [List.getElem?_eq_getElem (by omega)]
      exact ⟨_, rfl⟩
    obtain ⟨c, hc⟩ := hsome
    refine ⟨c, hc, ?_⟩
    have hcase : i < 0 + 8 ∨ (9 ≤ i ∧ i < 9 + 4) ∨ (14 ≤ i ∧ i < 14 + 4) ∨
        (19 ≤ i ∧ i < 19 + 4) ∨ (24 ≤ i ∧ i < 24 + 12) := by omega
    rcases hcase with h | h | h | h | h
    · exact g1 i c (by omega) h hc
    · exact g2 i c h.1 h.2 hc
    · exact g3 i c h.1 h.2 hc
    · exact g4 i c h.1 h.2 hc
    · exact g5 i c h.1 h.2 hc
  · intro h
    have key : ∀ i c, i < 36 → i ≠ 8 → i ≠ 13 → i ≠ 18 → i ≠ 23 →
        text[i]? = some c → isHexChar c := by
      intro i c hi h8 h13 h18 h23 hc
      obtain ⟨c2, hc2, hhex⟩ := h i hi h8 h13 h18 h23
      rw [hc] at hc2
      cases hc2
      exact hhex
    refine ⟨?_, ?_, ?_, ?_, ?_⟩ <;> intro i c h1 h2 hc <;>
      exact key i c (by omega) (by omega) (by omega) (by omega) (by omega) hc

/-- Every character of an encoding is a lower-case hexadecimal digit. -/
theorem isLowerHexChar_hexEncode (bs : List Nat) : ∀ c ∈ hexEncode bs, isLowerHexChar c := by
  induction bs with
  | nil => simp [hexEncode]
  | cons b bs ih =>
    intro c hc
    simp only [hexEncode, List.mem_cons] at hc
    rcases hc with h | h | h
    · rw [h]; exact isLowerHexChar_hexDigit _ (Nat.mod_lt _ (by decide))
    · rw [h]; exact isLowerHexChar_hexDigit _ (Nat.mod_lt _ (by decide))
    · exact ih c h

/-- C29: for every 16-byte UUID, `String` is five groups of 8, 4, 4, 4 and 12 lower-case
hexadecimal digits separated by `-` (36 characters), `FromString` of it returns the UUID
and no error, and `MarshalText` returns the bytes of `String` and no error. -/
theorem UUID_text_round_trip (ud : UUID) (hlen : ud.bytes.length = 16)
    (hbyte : ∀ b ∈ ud.bytes, b < 256) :
    (∃ g1 g2 g3 g4 g5 : List Nat,
      ud.String = g1 ++ 45 :: (g2 ++ 45 :: (g3 ++ 45 :: (g4 ++ 45 :: g5))) ∧
      g1.length = 8 ∧ g2.length = 4 ∧ g3.length = 4 ∧ g4.length = 4 ∧ g5.length = 12 ∧
      ∀ c ∈ g1 ++ g2 ++ g3 ++ g4 ++ g5, isLowerHexChar c) ∧
    ud.String.length = 36 ∧
    FromString ud.String = Run.returned (ud, none) ∧
    ud.MarshalText = (ud.String, none) := by
  obtain ⟨bytes⟩ := ud
  simp only at hlen hbyte
  obtain ⟨b0, tb0, hconsb0, htb0⟩ := cons_of_length_succ hlen
  subst hconsb0
  obtain ⟨b1, tb1, hconsb1, htb1⟩ := cons_of_length_succ htb0
  subst hconsb1
  obtain ⟨b2, tb2, hconsb2, htb2⟩ := cons_of_length_succ htb1
  subst hconsb2
  obtain ⟨b3, tb3, hconsb3, htb3⟩ := cons_of_length_succ htb2
  subst hconsb3
  obtain ⟨b4, tb4, hconsb4, htb4⟩ := cons_of_length_succ htb3
  subst hconsb4
  obtain ⟨b5, tb5, hconsb5, htb5⟩ := cons_of_length_succ htb4
  subst hconsb5
  obtain ⟨b6, tb6, hconsb6, htb6⟩ := cons_of_length_succ htb5
  subst hconsb6
  obtain ⟨b7, tb7, hconsb7, htb7⟩ := cons_of_length_succ htb6
  subst hconsb7
  obtain ⟨b8, tb8, hconsb8, htb8⟩ := cons_of_length_succ htb7
  subst hconsb8
  obtain ⟨b9, tb9, hconsb9, htb9⟩ := cons_of_length_succ htb8
  subst hconsb9
  obtain ⟨b10, tb10, hconsb10, htb10⟩ := cons_of_length_succ htb9
  subst hconsb10
  obtain ⟨b11, tb11, hconsb11, htb11⟩ := cons_of_length_succ htb10
  subst hconsb11
  obtain ⟨b12, tb12, hconsb12, htb12⟩ := cons_of_length_succ htb11
  subst hconsb12
  obtain ⟨b13, tb13, hconsb13, htb13⟩ := cons_of_length_succ htb12
  subst hconsb13
  obtain ⟨b14, tb14, hconsb14, htb14⟩ := cons_of_length_succ htb13
  subst hconsb14
  obtain ⟨b15, tb15, hconsb15, htb15⟩ := cons_of_length_succ htb14
  subst hconsb15
  have hnilb := List.length_eq_zero.mp htb15
  subst hnilb
  refine ⟨⟨hexEncode [b0, b1, b2, b3], hexEncode [b4, b5], hexEncode [b6, b7],
    hexEncode [b8, b9], hexEncode [b10, b11, b12, b13, b14, b15], rfl, rfl, rfl, rfl, rfl,
    rfl, ?_⟩, rfl, ?_, rfl⟩
  · intro c hc
    simp only [List.mem_append] at hc
    rcases hc with (((h | h) | h) | h) | h <;> exact isLowerHexChar_hexEncode _ c h
  · exact FromString_String_explicit b0 b1 b2 b3 b4 b5 b6 b7 b8 b9 b10 b11 b12 b13 b14 b15 (hbyte b0 (by simp)) (hbyte b1 (by simp)) (hbyte b2 (by simp)) (hbyte b3 (by simp)) (hbyte b4 (by simp)) (hbyte b5 (by simp)) (hbyte b6 (by simp)) (hbyte b7 (by simp)) (hbyte b8 (by simp)) (hbyte b9 (by simp)) (hbyte b10 (by simp)) (hbyte b11 (by simp)) (hbyte b12 (by simp)) (hbyte b13 (by simp)) (hbyte b14 (by simp)) (hbyte b15 (by simp))

/-- C30: for a 16-byte receiver and every text, `UnmarshalText` returns (no index or
slice bound is out of range) with a 16-byte receiver; it returns no error exactly when the
text has length 36, has `-` at the positions 8, 13, 18 and 23 and a hexadecimal digit at
every other position; and when it fails on the length or on the dash positions the
receiver is unchanged. -/
theorem UnmarshalText_accepts_iff (ud : UUID) (text : List Nat)
    (hud : ud.bytes.length = 16) :
    ∃ (ud1 : UUID) (err : Option UnmarshalError),
      ud.UnmarshalText text = Run.returned (ud1, err) ∧
      ud1.bytes.length = 16 ∧
      (err = none ↔
        text.length = 36 ∧ text[8]? = some 45 ∧ text[13]? = some 45 ∧
          text[18]? = some 45 ∧ text[23]? = some 45 ∧
          ∀ i : Nat, i < 36 → i ≠ 8 → i ≠ 13 → i ≠ 18 → i ≠ 23 →
            ∃ c, text[i]? = some c ∧ isHexChar c) ∧
      (text.length ≠ 36 →
        ud1 = ud ∧ err = some (UnmarshalError.incorrectLength text)) ∧
      (text.length = 36 →
        ¬ (text[8]? = some 45 ∧ text[13]? = some 45 ∧ text[18]? = some 45 ∧
          text[23]? = some 45) →
        ud1 = ud ∧ err = some (UnmarshalError.incorrectFormat text)) := by
  by_cases hlen : text.length = 36
  · obtain ⟨c8, h8⟩ : ∃ c, text[8]? = some c := by
      rw [List.getElem?_eq_getElem (by omega)]; exact ⟨_, rfl⟩
    obtain ⟨c13, h13⟩ : ∃ c, text[13]? = some c := by
      rw [List.getElem?_eq_getElem (by omega)]; exact ⟨_, rfl⟩
    obtain ⟨c18, h18⟩ : ∃ c, text[18]? = some c := by
      rw [List.getElem?_eq_getElem (by omega)]; exact ⟨_, rfl⟩
    obtain ⟨c23, h23⟩ : ∃ c, text[23]? = some c := by
      rw [List.getElem?_eq_getElem (by omega)]; exact ⟨_, rfl⟩
    by_cases hdash : c8 = 45 ∧ c13 = 45 ∧ c18 = 45 ∧ c23 = 45
    · obtain ⟨bytes, err, hrun, hblen, hiff⟩ :=
        unmarshalGroups_spec [8, 4, 4, 4, 12] 0 text 0 ud.bytes (by decide)
          (by simp [textNeeded, hlen]) (by simp [bytesNeeded, hud])
      refine ⟨⟨bytes⟩, err, ?_, by rw [hblen, hud], ?_, fun h => absurd hlen h, ?_⟩
      · have hno : ¬ (c8 ≠ dash ∨ c13 ≠ dash ∨ c18 ≠ dash ∨ c23 ≠ dash) := by
          simp [dash, hdash.1, hdash.2.1, hdash.2.2.1, hdash.2.2.2]
        simp only [UUID.UnmarshalText, uuidStringLength, hlen, ne_eq, not_true_eq_false,
          if_false, h8, h13, h18, h23, hno, hrun]
      · rw [hiff, hexGroups_text text hlen, h8, h13, h18, h23]
        simp [hlen, hdash.1, hdash.2.1, hdash.2.2.1, hdash.2.2.2]
      · intro _ hnot
        rw [h8, h13, h18, h23] at hnot
        simp [hdash.1, hdash.2.1, hdash.2.2.1, hdash.2.2.2] at hnot
    · have hyes : c8 ≠ dash ∨ c13 ≠ dash ∨ c18 ≠ dash ∨ c23 ≠ dash := by
        simp only [dash]
        by_contra hn
        simp only [not_or, not_not] at hn
        exact hdash ⟨hn.1, hn.2.1, hn.2.2.1, hn.2.2.2⟩
      refine ⟨ud, some (UnmarshalError.incorrectFormat text), ?_, hud, ?_,
        fun h => absurd hlen h, fun _ _ => ⟨rfl, rfl⟩⟩
      · simp only [UUID.UnmarshalText, uuidStringLength, hlen, ne_eq, not_true_eq_false,
          if_false, h8, h13, h18, h23, hyes, if_true]
      · constructor
        · intro h
          cases h
        · rintro ⟨_, e8, e13, e18, e23, _⟩
          rw [h8] at e8
          rw [h13] at e13
          rw [h18] at e18
          rw [h23] at e23
          simp only [Option.some.injEq] at e8 e13 e18 e23
          exact absurd ⟨e8, e13, e18, e23⟩ hdash
  · refine ⟨ud, some (UnmarshalError.incorrectLength text), ?_, hud, ?_,
      fun _ => ⟨rfl, rfl⟩, fun h => absurd h hlen⟩
    · simp only [UUID.UnmarshalText, uuidStringLength, ne_eq, hlen, not_false_eq_true,
        if_true]
    · constructor
      · intro h
        cases h
      · intro h
        exact absurd h.1 hlen


/-- Witness of C29: the UUID `12345678-9abc-def0-0102-0304050607ff`. -/
theorem UUID_text_round_trip_witness :
    exampleUUID.String.map Char.ofNat = "12345678-9abc-def0-0102-0304050607ff".data ∧
    FromString exampleUUID.String = Run.returned (exampleUUID, none) :=
  ⟨by decide,
   (UUID_text_round_trip exampleUUID (by decide) (by decide)).2.2.1⟩

/-- Witness of C30: the text of the example UUID is accepted into a zero receiver, and
the same text without its last character is rejected with the receiver unchanged. -/
theorem UnmarshalText_accepts_iff_witness :
    UUID.UnmarshalText ⟨List.replicate 16 0⟩ exampleUUID.String
      = Run.returned (exampleUUID, none) ∧
    UUID.UnmarshalText ⟨List.replicate 16 0⟩ exampleUUID.String.dropLast
      = Run.returned (⟨List.replicate 16 0⟩,
          some (UnmarshalError.incorrectLength exampleUUID.String.dropLast)) ∧
    ∃ (ud1 : UUID) (err : Option UnmarshalError),
      UUID.UnmarshalText ⟨List.replicate 16 0⟩ exampleUUID.String
        = Run.returned (ud1, err) ∧
      ud1.bytes.length = 16 ∧
      (err = none ↔
        exampleUUID.String.length = 36 ∧ exampleUUID.String[8]? = some 45 ∧
          exampleUUID.String[13]? = some 45 ∧ exampleUUID.String[18]? = some 45 ∧
          exampleUUID.String[23]? = some 45 ∧
          ∀ i : Nat, i < 36 → i ≠ 8 → i ≠ 13 → i ≠ 18 → i ≠ 23 →
            ∃ c, exampleUUID.String[i]? = some c ∧ isHexChar c) ∧
      (exampleUUID.String.length ≠ 36 →
        ud1 = ⟨List.replicate 16 0⟩ ∧
          err = some (UnmarshalError.incorrectLength exampleUUID.String)) ∧
      (exampleUUID.String.length = 36 →
        ¬ (exampleUUID.String[8]? = some 45 ∧ exampleUUID.String[13]? = some 45 ∧
          exampleUUID.String[18]? = some 45 ∧ exampleUUID.String[23]? = some 45) →
        ud1 = ⟨List.replicate 16 0⟩ ∧
          err = some (UnmarshalError.incorrectFormat exampleUUID.String)) :=
  ⟨by decide, by decide,
   UnmarshalText_accepts_iff ⟨List.replicate 16 0⟩ exampleUUID.String (by decide)⟩

end logger
